import Mathlib

/-!
Verification of the `half` crate's binary16 core (`src/binary16.rs`).

A half-precision value is its raw 16-bit pattern, modelled as a natural
number below 2 ^ 16.  Wider floats are likewise modelled by their IEEE 754
bit patterns (naturals below 2 ^ 32 and 2 ^ 64).  The comparison and
classification operations are translated directly from `binary16.rs`; the
bit-level conversion engine lives in the crate's `convert` module, which is
referenced by `binary16.rs` (`pub(crate) mod convert;`) but whose source
file is not part of the sources provided, so those functions are modelled
from the specification's section 4.1.
-/

set_option maxRecDepth 10000

/-- Translated from `f16::is_nan` in binary16.rs: `self.0 & 0x7FFF > 0x7C00`. -/
def is_nan (p : ℕ) : Bool := decide (0x7C00 < p &&& 0x7FFF)

/-- Translated from `impl PartialEq for f16` in binary16.rs. -/
def f16_eq (a b : ℕ) : Bool :=
  if is_nan a || is_nan b then false
  else (a == b) || ((a ||| b) &&& 0x7FFF == 0)

/-- Translated from `PartialOrd::partial_cmp for f16` in binary16.rs.
The nested ifs mirror the `match (neg, other_neg)` over the two sign bits. -/
def f16_cmp (a b : ℕ) : Option Ordering :=
  if is_nan a || is_nan b then none
  else
    if a &&& 0x8000 == 0 then
      if b &&& 0x8000 == 0 then some (compare a b)
      else if (a ||| b) &&& 0x7FFF == 0 then some Ordering.eq else some Ordering.gt
    else
      if b &&& 0x8000 == 0 then
        if (a ||| b) &&& 0x7FFF == 0 then some Ordering.eq else some Ordering.lt
      else some (compare b a)

/-- Translated from `PartialOrd::lt for f16` in binary16.rs. -/
def f16_lt (a b : ℕ) : Bool :=
  if is_nan a || is_nan b then false
  else
    if a &&& 0x8000 == 0 then
      if b &&& 0x8000 == 0 then decide (a < b) else false
    else
      if b &&& 0x8000 == 0 then (a ||| b) &&& 0x7FFF != 0
      else decide (b < a)

/-- Translated from `PartialOrd::le for f16` in binary16.rs. -/
def f16_le (a b : ℕ) : Bool :=
  if is_nan a || is_nan b then false
  else
    if a &&& 0x8000 == 0 then
      if b &&& 0x8000 == 0 then decide (a ≤ b) else (a ||| b) &&& 0x7FFF == 0
    else
      if b &&& 0x8000 == 0 then true
      else decide (b ≤ a)

/-- Translated from `PartialOrd::gt for f16` in binary16.rs. -/
def f16_gt (a b : ℕ) : Bool :=
  if is_nan a || is_nan b then false
  else
    if a &&& 0x8000 == 0 then
      if b &&& 0x8000 == 0 then decide (b < a) else (a ||| b) &&& 0x7FFF != 0
    else
      if b &&& 0x8000 == 0 then false
      else decide (a < b)

/-- Translated from `PartialOrd::ge for f16` in binary16.rs. -/
def f16_ge (a b : ℕ) : Bool :=
  if is_nan a || is_nan b then false
  else
    if a &&& 0x8000 == 0 then
      if b &&& 0x8000 == 0 then decide (b ≤ a) else true
    else
      if b &&& 0x8000 == 0 then (a ||| b) &&& 0x7FFF == 0
      else decide (a ≤ b)

/-- Modelled from the spec: index of the leading set bit of a nonzero 10-bit
mantissa, used by the widening conversion's subnormal normalization step
("left-shifting the mantissa ... until the leading mantissa bit is set",
spec section 4.1).  The crate's `convert` module is not among the provided
sources. -/
def hb (m : ℕ) : ℕ :=
  if m < 2 then 0 else if m < 4 then 1 else if m < 8 then 2 else if m < 16 then 3
  else if m < 32 then 4 else if m < 64 then 5 else if m < 128 then 6
  else if m < 256 then 7 else if m < 512 then 8 else 9

/-- Modelled from the spec: the widening conversion (16 to 32 / 64 bits) of
spec section 4.1, parameterized by the wider format's exponent and mantissa
widths.  The crate's `convert` module (`f16_to_f32` / `f16_to_f64`) is not
among the provided sources.  Cases follow the spec: signed zero, subnormal
normalization, normal re-biasing, and Inf/NaN with payload shifted into the
high mantissa bits. -/
def widen (expW manW : ℕ) (p : ℕ) : ℕ :=
  let s := p / 2 ^ 15
  let e := p / 2 ^ 10 % 2 ^ 5
  let m := p % 2 ^ 10
  let bias := 2 ^ (expW - 1) - 1
  let sp := s * 2 ^ (expW + manW)
  if e = 0 then
    if m = 0 then sp
    else
      let k := hb m
      sp + (bias + k - 24) * 2 ^ manW + (m - 2 ^ k) * 2 ^ (manW - k)
  else if e = 31 then sp + (2 ^ expW - 1) * 2 ^ manW + m * 2 ^ (manW - 10)
  else sp + (e + bias - 15) * 2 ^ manW + m * 2 ^ (manW - 10)

/-- Widening 16 to 32 bits: `f16::to_f32` (via the spec-modelled engine). -/
def f16_to_f32 (p : ℕ) : ℕ := widen 8 23 p

/-- Widening 16 to 64 bits: `f16::to_f64` (via the spec-modelled engine). -/
def f16_to_f64 (p : ℕ) : ℕ := widen 11 52 p

/-- Modelled from the spec: round-to-nearest-ties-to-even increment for the
narrowing conversion (spec section 4.1): increment exactly when the rounding
bit (bit `rb` of `man`, the first discarded bit) is set and either a lower
discarded (sticky) bit is set or the lowest retained bit (bit `rb + 1`) is
set. -/
def roundUp (man rb : ℕ) : ℕ :=
  if man / 2 ^ rb % 2 = 1 ∧ (man % 2 ^ rb ≠ 0 ∨ man / 2 ^ (rb + 1) % 2 = 1) then 1 else 0

/-- Modelled from the spec: the narrowing conversion (32 / 64 to 16 bits) of
spec section 4.1, parameterized by the source format's widths.  The crate's
`convert` module (`f32_to_f16` / `f64_to_f16`) is not among the provided
sources.  Cases: NaN keeps sign and the high mantissa bits as payload with
the quiet bit forced (so the result still classifies as NaN); Inf and
overflowing exponents saturate to signed infinity; exponents at or below the
subnormal range shift the full significand (hidden bit included) into a
subnormal, or collapse to signed zero when even rounding cannot reach the
smallest subnormal; normal results are re-biased; all rounding uses
`roundUp`, with a carry propagating into the exponent and, at the top, into
infinity. -/
def narrow (expW manW : ℕ) (x : ℕ) : ℕ :=
  let s := x / 2 ^ (expW + manW) % 2
  let e := x / 2 ^ manW % 2 ^ expW
  let m := x % 2 ^ manW
  let bias := 2 ^ (expW - 1) - 1
  let hs := s * 2 ^ 15
  if e = 2 ^ expW - 1 then
    if m = 0 then hs + 0x7C00
    else
      let pay := m / 2 ^ (manW - 10)
      hs + 0x7C00 + (if pay < 0x200 then 0x200 + pay else pay)
  else if bias + 16 ≤ e then hs + 0x7C00
  else if e + 15 ≤ bias then
    if e + 25 < bias then hs
    else
      let man := 2 ^ manW + m
      let shift := manW + bias - 24 - e
      hs + man / 2 ^ shift + roundUp man (shift - 1)
  else hs + (e + 15 - bias) * 2 ^ 10 + m / 2 ^ (manW - 10) + roundUp m (manW - 11)

/-- Narrowing 32 to 16 bits: `f16::from_f32` (via the spec-modelled engine). -/
def f32_to_f16 (x : ℕ) : ℕ := narrow 8 23 x

/-- Narrowing 64 to 16 bits: `f16::from_f64` (via the spec-modelled engine). -/
def f64_to_f16 (x : ℕ) : ℕ := narrow 11 52 x

/-- Translated from `f16::signum` in binary16.rs: NaN is returned as is,
otherwise `from_f32(-1.0)` (bits 0xBF800000) for a set sign bit and
`from_f32(1.0)` (bits 0x3F800000) otherwise. -/
def signum (p : ℕ) : ℕ :=
  if is_nan p then p
  else if p &&& 0x8000 == 0 then f32_to_f16 0x3F800000
  else f32_to_f16 0xBF800000

/-- Modelled from the spec: NaN test on a 32-bit pattern (all exponent bits
set and nonzero mantissa), the 32-bit analogue of `f16::is_nan`, needed to
state the comparison-after-widening property of spec section 8. -/
def is_nan32 (x : ℕ) : Bool := decide (0x7F800000 < x &&& 0x7FFFFFFF)

/-- Modelled from the spec: the IEEE 754 comparison on 32-bit patterns
(NaN unordered, signed zeros equal, sign/magnitude order otherwise), the
comparison "obtained by widening both operands to 32-bit and comparing
there" of spec section 8, written with the same sign-bit case split as the
crate's 16-bit comparison. -/
def f32_cmp (a b : ℕ) : Option Ordering :=
  if is_nan32 a || is_nan32 b then none
  else
    if a &&& 0x80000000 == 0 then
      if b &&& 0x80000000 == 0 then some (compare a b)
      else if (a ||| b) &&& 0x7FFFFFFF == 0 then some Ordering.eq else some Ordering.gt
    else
      if b &&& 0x80000000 == 0 then
        if (a ||| b) &&& 0x7FFFFFFF == 0 then some Ordering.eq else some Ordering.lt
      else some (compare b a)

/-- Modelled from the spec: NaN test on a 64-bit pattern (all exponent bits
set and nonzero mantissa), the 64-bit analogue of `f16::is_nan`, needed to
state the NaN-preservation property of spec section 4.1 for the 64-bit
narrowing. -/
def is_nan64 (x : ℕ) : Bool := decide (0x7FF0000000000000 < x &&& 0x7FFFFFFFFFFFFFFF)

/-! Bridging lemmas from the bitwise operations of the source to plain
division and remainder arithmetic. -/

theorem and_mask (a n : ℕ) : a &&& (2 ^ n - 1) = a % 2 ^ n :=
  Nat.and_pow_two_sub_one_eq_mod a n

theorem and_sign (a n : ℕ) : a &&& 2 ^ n = a / 2 ^ n % 2 * 2 ^ n := by
  rw [Nat.and_two_pow, Nat.testBit_to_div_mod]
  rcases Nat.mod_two_eq_zero_or_one (a / 2 ^ n) with h | h <;> simp [h]

theorem lor_mod_zero {a b n : ℕ} : (a ||| b) % 2 ^ n = 0 ↔ a % 2 ^ n = 0 ∧ b % 2 ^ n = 0 := by
  constructor
  · intro h
    have hb' : ∀ i, ((a ||| b) % 2 ^ n).testBit i = false := by
      intro i; rw [h]; exact Nat.zero_testBit i
    constructor <;>
      refine Nat.eq_of_testBit_eq fun i => ?_
    · have := hb' i
      rw [Nat.testBit_mod_two_pow, Nat.testBit_lor] at this
      rw [Nat.testBit_mod_two_pow, Nat.zero_testBit]
      rcases Bool.and_eq_false_iff.mp this with h1 | h1
      · simp [h1]
      · simp [Bool.or_eq_false_iff.mp h1]
    · have := hb' i
      rw [Nat.testBit_mod_two_pow, Nat.testBit_lor] at this
      rw [Nat.testBit_mod_two_pow, Nat.zero_testBit]
      rcases Bool.and_eq_false_iff.mp this with h1 | h1
      · simp [h1]
      · simp [Bool.or_eq_false_iff.mp h1]
  · intro ⟨h1, h2⟩
    refine Nat.eq_of_testBit_eq fun i => ?_
    have t1 := congrArg (fun t => t.testBit i) h1
    have t2 := congrArg (fun t => t.testBit i) h2
    simp only [Nat.testBit_mod_two_pow, Nat.zero_testBit] at t1 t2
    rw [Nat.testBit_mod_two_pow, Nat.testBit_lor, Nat.zero_testBit]
    rcases Bool.and_eq_false_iff.mp t1 with h | h
    · simp [h]
    · rcases Bool.and_eq_false_iff.mp t2 with h' | h'
      · simp [h']
      · simp [h, h']

theorem beq_decide (x y : ℕ) : (x == y) = decide (x = y) := by
  by_cases h : x = y <;> simp [h]

theorem is_nan_arith (p : ℕ) : is_nan p = decide (0x7C00 < p % 0x8000) := by
  unfold is_nan
  rw [show (0x7FFF : ℕ) = 2 ^ 15 - 1 by norm_num, and_mask]
  exact decide_eq_decide.mpr (by norm_num)

theorem sign_arith (a : ℕ) : (a &&& 0x8000 == 0) = decide (a / 0x8000 % 2 = 0) := by
  rw [show (0x8000 : ℕ) = 2 ^ 15 by norm_num, and_sign, beq_decide]
  exact decide_eq_decide.mpr (by omega)

theorem ormask_arith (a b : ℕ) :
    ((a ||| b) &&& 0x7FFF == 0) = decide (a % 0x8000 = 0 ∧ b % 0x8000 = 0) := by
  have h := @lor_mod_zero a b 15
  rw [show (0x7FFF : ℕ) = 2 ^ 15 - 1 by norm_num, and_mask, beq_decide]
  exact decide_eq_decide.mpr (by rw [h]; norm_num)

theorem ormask_arith_ne (a b : ℕ) :
    ((a ||| b) &&& 0x7FFF != 0) = decide (¬(a % 0x8000 = 0 ∧ b % 0x8000 = 0)) := by
  rw [bne, ormask_arith]
  by_cases h : a % 0x8000 = 0 ∧ b % 0x8000 = 0 <;> simp [h]

theorem is_nan32_arith (x : ℕ) : is_nan32 x = decide (0x7F800000 < x % 0x80000000) := by
  unfold is_nan32
  rw [show (0x7FFFFFFF : ℕ) = 2 ^ 31 - 1 by norm_num, and_mask]
  exact decide_eq_decide.mpr (by norm_num)

theorem sign32_arith (a : ℕ) :
    (a &&& 0x80000000 == 0) = decide (a / 0x80000000 % 2 = 0) := by
  rw [show (0x80000000 : ℕ) = 2 ^ 31 by norm_num, and_sign, beq_decide]
  exact decide_eq_decide.mpr (by omega)

theorem ormask32_arith (a b : ℕ) :
    ((a ||| b) &&& 0x7FFFFFFF == 0) = decide (a % 0x80000000 = 0 ∧ b % 0x80000000 = 0) := by
  have h := @lor_mod_zero a b 31
  rw [show (0x7FFFFFFF : ℕ) = 2 ^ 31 - 1 by norm_num, and_mask, beq_decide]
  exact decide_eq_decide.mpr (by rw [h]; norm_num)

/-! Closed evaluation forms of the conversion engine, one per exponent
region, proved from the definitions. -/

theorem hb_spec {m : ℕ} (h1 : 1 ≤ m) (h2 : m < 1024) :
    2 ^ hb m ≤ m ∧ m < 2 ^ (hb m + 1) ∧ hb m ≤ 9 := by
  unfold hb
  split_ifs <;> norm_num <;> omega

theorem widen32_zero (s : ℕ) (hs : s < 2) : f16_to_f32 (s * 2 ^ 15) = s * 2 ^ 31 := by
  unfold f16_to_f32 widen
  norm_num
  rw [show s * 32768 / 1024 % 32 = 0 from by omega,
      show s * 32768 % 1024 = 0 from by omega,
      if_pos rfl, if_pos rfl]

theorem widen32_sub (s m : ℕ) (hs : s < 2) (h1 : 1 ≤ m) (h2 : m < 2 ^ 10) :
    f16_to_f32 (s * 2 ^ 15 + m)
      = s * 2 ^ 31 + (103 + hb m) * 2 ^ 23 + (m - 2 ^ hb m) * 2 ^ (23 - hb m) := by
  unfold f16_to_f32 widen
  norm_num
  rw [show (s * 32768 + m) / 1024 % 32 = 0 from by omega,
      show (s * 32768 + m) % 1024 = m from by omega,
      show (s * 32768 + m) / 32768 = s from by omega,
      if_pos rfl, if_neg (by omega),
      show 127 + hb m - 24 = 103 + hb m from by omega]

theorem widen32_norm (s e m : ℕ) (hs : s < 2) (he1 : 1 ≤ e) (he2 : e ≤ 30)
    (hm : m < 2 ^ 10) :
    f16_to_f32 (s * 2 ^ 15 + e * 2 ^ 10 + m)
      = s * 2 ^ 31 + (e + 112) * 2 ^ 23 + m * 2 ^ 13 := by
  unfold f16_to_f32 widen
  norm_num
  rw [show (s * 32768 + e * 1024 + m) / 1024 % 32 = e from by omega,
      show (s * 32768 + e * 1024 + m) % 1024 = m from by omega,
      show (s * 32768 + e * 1024 + m) / 32768 = s from by omega,
      if_neg (by omega), if_neg (by omega),
      show e + 127 - 15 = e + 112 from by omega]

theorem widen32_inf (s m : ℕ) (hs : s < 2) (hm : m < 2 ^ 10) :
    f16_to_f32 (s * 2 ^ 15 + 31 * 2 ^ 10 + m)
      = s * 2 ^ 31 + 255 * 2 ^ 23 + m * 2 ^ 13 := by
  unfold f16_to_f32 widen
  norm_num
  rw [show (s * 32768 + 31 * 1024 + m) / 1024 % 32 = 31 from by omega,
      show (s * 32768 + 31 * 1024 + m) % 1024 = m from by omega,
      show (s * 32768 + 31 * 1024 + m) / 32768 = s from by omega,
      if_neg (by omega), if_pos rfl]

theorem narrow32_inf (s : ℕ) (hs : s < 2) :
    f32_to_f16 (s * 2 ^ 31 + 255 * 2 ^ 23) = s * 2 ^ 15 + 0x7C00 := by
  unfold f32_to_f16 narrow
  norm_num
  rw [show (s * 2147483648 + 255 * 8388608) / 2147483648 % 2 = s from by omega,
      show (s * 2147483648 + 255 * 8388608) / 8388608 % 256 = 255 from by omega,
      show (s * 2147483648 + 255 * 8388608) % 8388608 = 0 from by omega,
      if_pos rfl, if_pos rfl]

theorem narrow32_nan (s m : ℕ) (hs : s < 2) (h1 : 1 ≤ m) (hm : m < 2 ^ 23) :
    f32_to_f16 (s * 2 ^ 31 + 255 * 2 ^ 23 + m)
      = s * 2 ^ 15 + 0x7C00
        + (if m / 2 ^ 13 < 0x200 then 0x200 + m / 2 ^ 13 else m / 2 ^ 13) := by
  unfold f32_to_f16 narrow
  norm_num
  rw [show (s * 2147483648 + 255 * 8388608 + m) / 2147483648 % 2 = s from by omega,
      show (s * 2147483648 + 255 * 8388608 + m) / 8388608 % 256 = 255 from by omega,
      show (s * 2147483648 + 255 * 8388608 + m) % 8388608 = m from by omega,
      if_pos rfl, if_neg (by omega)]

theorem narrow32_over (s e m : ℕ) (hs : s < 2) (he1 : 143 ≤ e) (he2 : e ≤ 254)
    (hm : m < 2 ^ 23) :
    f32_to_f16 (s * 2 ^ 31 + e * 2 ^ 23 + m) = s * 2 ^ 15 + 0x7C00 := by
  unfold f32_to_f16 narrow
  norm_num
  rw [show (s * 2147483648 + e * 8388608 + m) / 2147483648 % 2 = s from by omega,
      show (s * 2147483648 + e * 8388608 + m) / 8388608 % 256 = e from by omega,
      if_neg (by omega), if_pos (by omega)]

theorem narrow32_normal (s e m : ℕ) (hs : s < 2) (he1 : 113 ≤ e) (he2 : e ≤ 142)
    (hm : m < 2 ^ 23) :
    f32_to_f16 (s * 2 ^ 31 + e * 2 ^ 23 + m)
      = s * 2 ^ 15 + (e - 112) * 2 ^ 10 + m / 2 ^ 13 + roundUp m 12 := by
  unfold f32_to_f16 narrow
  norm_num
  rw [show (s * 2147483648 + e * 8388608 + m) / 2147483648 % 2 = s from by omega,
      show (s * 2147483648 + e * 8388608 + m) / 8388608 % 256 = e from by omega,
      show (s * 2147483648 + e * 8388608 + m) % 8388608 = m from by omega,
      if_neg (by omega), if_neg (by omega), if_neg (by omega),
      show e + 15 - 127 = e - 112 from by omega]

theorem narrow32_sub (s e m : ℕ) (hs : s < 2) (he1 : 102 ≤ e) (he2 : e ≤ 112)
    (hm : m < 2 ^ 23) :
    f32_to_f16 (s * 2 ^ 31 + e * 2 ^ 23 + m)
      = s * 2 ^ 15 + (2 ^ 23 + m) / 2 ^ (126 - e) + roundUp (2 ^ 23 + m) (125 - e) := by
  unfold f32_to_f16 narrow
  norm_num
  rw [show (s * 2147483648 + e * 8388608 + m) / 2147483648 % 2 = s from by omega,
      show (s * 2147483648 + e * 8388608 + m) / 8388608 % 256 = e from by omega,
      show (s * 2147483648 + e * 8388608 + m) % 8388608 = m from by omega,
      if_neg (by omega), if_neg (by omega), if_pos (by omega), if_neg (by omega),
      show 126 - e - 1 = 125 - e from by omega]

theorem narrow32_under (s e m : ℕ) (hs : s < 2) (he : e ≤ 101) (hm : m < 2 ^ 23) :
    f32_to_f16 (s * 2 ^ 31 + e * 2 ^ 23 + m) = s * 2 ^ 15 := by
  unfold f32_to_f16 narrow
  norm_num
  rw [show (s * 2147483648 + e * 8388608 + m) / 2147483648 % 2 = s from by omega,
      show (s * 2147483648 + e * 8388608 + m) / 8388608 % 256 = e from by omega,
      if_neg (by omega), if_neg (by omega), if_pos (by omega), if_pos (by omega)]

theorem widen64_zero (s : ℕ) (hs : s < 2) : f16_to_f64 (s * 2 ^ 15) = s * 2 ^ 63 := by
  unfold f16_to_f64 widen
  norm_num
  rw [show s * 32768 / 1024 % 32 = 0 from by omega,
      show s * 32768 % 1024 = 0 from by omega,
      if_pos rfl, if_pos rfl]

theorem widen64_sub (s m : ℕ) (hs : s < 2) (h1 : 1 ≤ m) (h2 : m < 2 ^ 10) :
    f16_to_f64 (s * 2 ^ 15 + m)
      = s * 2 ^ 63 + (999 + hb m) * 2 ^ 52 + (m - 2 ^ hb m) * 2 ^ (52 - hb m) := by
  unfold f16_to_f64 widen
  norm_num
  rw [show (s * 32768 + m) / 1024 % 32 = 0 from by omega,
      show (s * 32768 + m) % 1024 = m from by omega,
      show (s * 32768 + m) / 32768 = s from by omega,
      if_pos rfl, if_neg (by omega),
      show 1023 + hb m - 24 = 999 + hb m from by omega]

theorem widen64_norm (s e m : ℕ) (hs : s < 2) (he1 : 1 ≤ e) (he2 : e ≤ 30)
    (hm : m < 2 ^ 10) :
    f16_to_f64 (s * 2 ^ 15 + e * 2 ^ 10 + m)
      = s * 2 ^ 63 + (e + 1008) * 2 ^ 52 + m * 2 ^ 42 := by
  unfold f16_to_f64 widen
  norm_num
  rw [show (s * 32768 + e * 1024 + m) / 1024 % 32 = e from by omega,
      show (s * 32768 + e * 1024 + m) % 1024 = m from by omega,
      show (s * 32768 + e * 1024 + m) / 32768 = s from by omega,
      if_neg (by omega), if_neg (by omega),
      show e + 1023 - 15 = e + 1008 from by omega]

theorem widen64_inf (s m : ℕ) (hs : s < 2) (hm : m < 2 ^ 10) :
    f16_to_f64 (s * 2 ^ 15 + 31 * 2 ^ 10 + m)
      = s * 2 ^ 63 + 2047 * 2 ^ 52 + m * 2 ^ 42 := by
  unfold f16_to_f64 widen
  norm_num
  rw [show (s * 32768 + 31 * 1024 + m) / 1024 % 32 = 31 from by omega,
      show (s * 32768 + 31 * 1024 + m) % 1024 = m from by omega,
      show (s * 32768 + 31 * 1024 + m) / 32768 = s from by omega,
      if_neg (by omega), if_pos rfl]

theorem narrow64_inf (s : ℕ) (hs : s < 2) :
    f64_to_f16 (s * 2 ^ 63 + 2047 * 2 ^ 52) = s * 2 ^ 15 + 0x7C00 := by
  unfold f64_to_f16 narrow
  norm_num
  rw [show (s * 9223372036854775808 + 2047 * 4503599627370496) / 9223372036854775808 % 2
        = s from by omega,
      show (s * 9223372036854775808 + 2047 * 4503599627370496) / 4503599627370496 % 2048
        = 2047 from by omega,
      show (s * 9223372036854775808 + 2047 * 4503599627370496) % 4503599627370496
        = 0 from by omega,
      if_pos rfl, if_pos rfl]

theorem narrow64_nan (s m : ℕ) (hs : s < 2) (h1 : 1 ≤ m) (hm : m < 2 ^ 52) :
    f64_to_f16 (s * 2 ^ 63 + 2047 * 2 ^ 52 + m)
      = s * 2 ^ 15 + 0x7C00
        + (if m / 2 ^ 42 < 0x200 then 0x200 + m / 2 ^ 42 else m / 2 ^ 42) := by
  unfold f64_to_f16 narrow
  norm_num
  rw [show (s * 9223372036854775808 + 2047 * 4503599627370496 + m) / 9223372036854775808 % 2
        = s from by omega,
      show (s * 9223372036854775808 + 2047 * 4503599627370496 + m) / 4503599627370496 % 2048
        = 2047 from by omega,
      show (s * 9223372036854775808 + 2047 * 4503599627370496 + m) % 4503599627370496
        = m from by omega,
      if_pos rfl, if_neg (by omega)]

theorem narrow64_over (s e m : ℕ) (hs : s < 2) (he1 : 1039 ≤ e) (he2 : e ≤ 2046)
    (hm : m < 2 ^ 52) :
    f64_to_f16 (s * 2 ^ 63 + e * 2 ^ 52 + m) = s * 2 ^ 15 + 0x7C00 := by
  unfold f64_to_f16 narrow
  norm_num
  rw [show (s * 9223372036854775808 + e * 4503599627370496 + m) / 9223372036854775808 % 2
        = s from by omega,
      show (s * 9223372036854775808 + e * 4503599627370496 + m) / 4503599627370496 % 2048
        = e from by omega,
      if_neg (by omega), if_pos (by omega)]

theorem narrow64_normal (s e m : ℕ) (hs : s < 2) (he1 : 1009 ≤ e) (he2 : e ≤ 1038)
    (hm : m < 2 ^ 52) :
    f64_to_f16 (s * 2 ^ 63 + e * 2 ^ 52 + m)
      = s * 2 ^ 15 + (e - 1008) * 2 ^ 10 + m / 2 ^ 42 + roundUp m 41 := by
  unfold f64_to_f16 narrow
  norm_num
  rw [show (s * 9223372036854775808 + e * 4503599627370496 + m) / 9223372036854775808 % 2
        = s from by omega,
      show (s * 9223372036854775808 + e * 4503599627370496 + m) / 4503599627370496 % 2048
        = e from by omega,
      show (s * 9223372036854775808 + e * 4503599627370496 + m) % 4503599627370496
        = m from by omega,
      if_neg (by omega), if_neg (by omega), if_neg (by omega),
      show e + 15 - 1023 = e - 1008 from by omega]

theorem narrow64_sub (s e m : ℕ) (hs : s < 2) (he1 : 998 ≤ e) (he2 : e ≤ 1008)
    (hm : m < 2 ^ 52) :
    f64_to_f16 (s * 2 ^ 63 + e * 2 ^ 52 + m)
      = s * 2 ^ 15 + (2 ^ 52 + m) / 2 ^ (1051 - e) + roundUp (2 ^ 52 + m) (1050 - e) := by
  unfold f64_to_f16 narrow
  norm_num
  rw [show (s * 9223372036854775808 + e * 4503599627370496 + m) / 9223372036854775808 % 2
        = s from by omega,
      show (s * 9223372036854775808 + e * 4503599627370496 + m) / 4503599627370496 % 2048
        = e from by omega,
      show (s * 9223372036854775808 + e * 4503599627370496 + m) % 4503599627370496
        = m from by omega,
      if_neg (by omega), if_neg (by omega), if_pos (by omega), if_neg (by omega),
      show 1051 - e - 1 = 1050 - e from by omega]

theorem narrow64_under (s e m : ℕ) (hs : s < 2) (he : e ≤ 997) (hm : m < 2 ^ 52) :
    f64_to_f16 (s * 2 ^ 63 + e * 2 ^ 52 + m) = s * 2 ^ 15 := by
  unfold f64_to_f16 narrow
  norm_num
  rw [show (s * 9223372036854775808 + e * 4503599627370496 + m) / 9223372036854775808 % 2
        = s from by omega,
      show (s * 9223372036854775808 + e * 4503599627370496 + m) / 4503599627370496 % 2048
        = e from by omega,
      if_neg (by omega), if_neg (by omega), if_pos (by omega), if_pos (by omega)]

/-! Round-trip of every 16-bit pattern through the wider formats. -/

theorem rt32_id (p : ℕ) (hp : p < 65536) (hn : is_nan p = false) :
    f32_to_f16 (f16_to_f32 p) = p := by
  obtain ⟨s, e, m, hs, he, hm, rfl⟩ :
      ∃ s e m, s < 2 ∧ e ≤ 31 ∧ m < 1024 ∧ p = s * 2 ^ 15 + e * 2 ^ 10 + m :=
    ⟨p / 2 ^ 15, p / 2 ^ 10 % 32, p % 1024, by omega, by omega, by omega, by omega⟩
  rw [is_nan_arith] at hn
  have hn' : ¬(0x7C00 < (s * 2 ^ 15 + e * 2 ^ 10 + m) % 0x8000) := by
    simpa using hn
  by_cases he0 : e = 0
  · subst he0
    by_cases hm0 : m = 0
    · subst hm0
      rw [show s * 2 ^ 15 + 0 * 2 ^ 10 + 0 = s * 2 ^ 15 from by ring, widen32_zero s hs,
          show s * 2 ^ 31 = s * 2 ^ 31 + 0 * 2 ^ 23 + 0 from by ring,
          narrow32_under s 0 0 hs (by omega) (by omega)]
    · rw [show s * 2 ^ 15 + 0 * 2 ^ 10 + m = s * 2 ^ 15 + m from by ring,
          widen32_sub s m hs (by omega) (by omega)]
      have hk := hb_spec (m := m) (by omega) (by omega)
      have hmb : (m - 2 ^ hb m) * 2 ^ (23 - hb m) < 2 ^ 23 := by
        have h1 : m - 2 ^ hb m < 2 ^ hb m := by
          have := hk.2.1
          rw [pow_succ] at this
          omega
        calc (m - 2 ^ hb m) * 2 ^ (23 - hb m) < 2 ^ hb m * 2 ^ (23 - hb m) :=
              mul_lt_mul_of_pos_right h1 (Nat.pos_pow_of_pos _ (by norm_num))
        _ = 2 ^ 23 := by
              rw [← pow_add]
              congr 1
              omega
      rw [narrow32_sub s (103 + hb m) ((m - 2 ^ hb m) * 2 ^ (23 - hb m)) hs
            (by omega) (by omega) hmb]
      set k := hb m with hkdef
      have hk1 : 2 ^ k ≤ m := hk.1
      have hk2 : m < 2 ^ (k + 1) := hk.2.1
      have hk9 : k ≤ 9 := hk.2.2
      clear_value k
      interval_cases k <;>
        · simp only [roundUp]
          norm_num at hk1 hk2 ⊢
          rw [if_neg (by omega)]
          omega
  · by_cases he31 : e = 31
    · subst he31
      have hm0 : m = 0 := by omega
      subst hm0
      rw [widen32_inf s 0 hs (by omega),
          show s * 2 ^ 31 + 255 * 2 ^ 23 + 0 * 2 ^ 13 = s * 2 ^ 31 + 255 * 2 ^ 23 from by ring,
          narrow32_inf s hs]
      omega
    · rw [widen32_norm s e m hs (by omega) (by omega) (by omega),
          narrow32_normal s (e + 112) (m * 2 ^ 13) hs (by omega) (by omega) (by omega)]
      simp only [roundUp]
      rw [if_neg (by omega)]
      omega

theorem rt32_nan (p : ℕ) (hp : p < 65536) (hn : is_nan p = true) :
    is_nan (f32_to_f16 (f16_to_f32 p)) = true ∧
      f32_to_f16 (f16_to_f32 p) / 2 ^ 15 = p / 2 ^ 15 := by
  obtain ⟨s, e, m, hs, he, hm, rfl⟩ :
      ∃ s e m, s < 2 ∧ e ≤ 31 ∧ m < 1024 ∧ p = s * 2 ^ 15 + e * 2 ^ 10 + m :=
    ⟨p / 2 ^ 15, p / 2 ^ 10 % 32, p % 1024, by omega, by omega, by omega, by omega⟩
  rw [is_nan_arith] at hn
  have hn' : 0x7C00 < (s * 2 ^ 15 + e * 2 ^ 10 + m) % 0x8000 := by
    simpa using hn
  have he31 : e = 31 := by omega
  have hm1 : 1 ≤ m := by omega
  subst he31
  rw [widen32_inf s m hs (by omega),
      narrow32_nan s (m * 2 ^ 13) hs (by omega) (by omega),
      show m * 2 ^ 13 / 2 ^ 13 = m from by omega, is_nan_arith]
  by_cases hq : m < 0x200
  · rw [if_pos (by omega)]
    constructor
    · simp only [decide_eq_true_eq]
      omega
    · omega
  · rw [if_neg (by omega)]
    constructor
    · simp only [decide_eq_true_eq]
      omega
    · omega

theorem rt64_id (p : ℕ) (hp : p < 65536) (hn : is_nan p = false) :
    f64_to_f16 (f16_to_f64 p) = p := by
  obtain ⟨s, e, m, hs, he, hm, rfl⟩ :
      ∃ s e m, s < 2 ∧ e ≤ 31 ∧ m < 1024 ∧ p = s * 2 ^ 15 + e * 2 ^ 10 + m :=
    ⟨p / 2 ^ 15, p / 2 ^ 10 % 32, p % 1024, by omega, by omega, by omega, by omega⟩
  rw [is_nan_arith] at hn
  have hn' : ¬(0x7C00 < (s * 2 ^ 15 + e * 2 ^ 10 + m) % 0x8000) := by
    simpa using hn
  by_cases he0 : e = 0
  · subst he0
    by_cases hm0 : m = 0
    · subst hm0
      rw [show s * 2 ^ 15 + 0 * 2 ^ 10 + 0 = s * 2 ^ 15 from by ring, widen64_zero s hs,
          show s * 2 ^ 63 = s * 2 ^ 63 + 0 * 2 ^ 52 + 0 from by ring,
          narrow64_under s 0 0 hs (by omega) (by omega)]
    · rw [show s * 2 ^ 15 + 0 * 2 ^ 10 + m = s * 2 ^ 15 + m from by ring,
          widen64_sub s m hs (by omega) (by omega)]
      have hk := hb_spec (m := m) (by omega) (by omega)
      have hmb : (m - 2 ^ hb m) * 2 ^ (52 - hb m) < 2 ^ 52 := by
        have h1 : m - 2 ^ hb m < 2 ^ hb m := by
          have := hk.2.1
          rw [pow_succ] at this
          omega
        calc (m - 2 ^ hb m) * 2 ^ (52 - hb m) < 2 ^ hb m * 2 ^ (52 - hb m) :=
              mul_lt_mul_of_pos_right h1 (Nat.pos_pow_of_pos _ (by norm_num))
        _ = 2 ^ 52 := by
              rw [← pow_add]
              congr 1
              omega
      rw [narrow64_sub s (999 + hb m) ((m - 2 ^ hb m) * 2 ^ (52 - hb m)) hs
            (by omega) (by omega) hmb]
      set k := hb m with hkdef
      have hk1 : 2 ^ k ≤ m := hk.1
      have hk2 : m < 2 ^ (k + 1) := hk.2.1
      have hk9 : k ≤ 9 := hk.2.2
      clear_value k
      interval_cases k <;>
        · simp only [roundUp]
          norm_num at hk1 hk2 ⊢
          rw [if_neg (by omega)]
          omega
  · by_cases he31 : e = 31
    · subst he31
      have hm0 : m = 0 := by omega
      subst hm0
      rw [widen64_inf s 0 hs (by omega),
          show s * 2 ^ 63 + 2047 * 2 ^ 52 + 0 * 2 ^ 42 = s * 2 ^ 63 + 2047 * 2 ^ 52 from by
            ring,
          narrow64_inf s hs]
      omega
    · rw [widen64_norm s e m hs (by omega) (by omega) (by omega),
          narrow64_normal s (e + 1008) (m * 2 ^ 42) hs (by omega) (by omega) (by omega)]
      simp only [roundUp]
      rw [if_neg (by omega)]
      omega

theorem rt64_nan (p : ℕ) (hp : p < 65536) (hn : is_nan p = true) :
    is_nan (f64_to_f16 (f16_to_f64 p)) = true ∧
      f64_to_f16 (f16_to_f64 p) / 2 ^ 15 = p / 2 ^ 15 := by
  obtain ⟨s, e, m, hs, he, hm, rfl⟩ :
      ∃ s e m, s < 2 ∧ e ≤ 31 ∧ m < 1024 ∧ p = s * 2 ^ 15 + e * 2 ^ 10 + m :=
    ⟨p / 2 ^ 15, p / 2 ^ 10 % 32, p % 1024, by omega, by omega, by omega, by omega⟩
  rw [is_nan_arith] at hn
  have hn' : 0x7C00 < (s * 2 ^ 15 + e * 2 ^ 10 + m) % 0x8000 := by
    simpa using hn
  have he31 : e = 31 := by omega
  have hm1 : 1 ≤ m := by omega
  subst he31
  rw [widen64_inf s m hs (by omega),
      narrow64_nan s (m * 2 ^ 42) hs (by omega) (by omega),
      show m * 2 ^ 42 / 2 ^ 42 = m from by omega, is_nan_arith]
  by_cases hq : m < 0x200
  · rw [if_pos (by omega)]
    constructor
    · simp only [decide_eq_true_eq]
      omega
    · omega
  · rw [if_neg (by omega)]
    constructor
    · simp only [decide_eq_true_eq]
      omega
    · omega

/-! Order-theoretic facts about the 16-to-32-bit widening, used to relate
the direct 16-bit comparison with the comparison after widening. -/

theorem sub_chunk_lt {m w : ℕ} (h1 : 1 ≤ m) (h2 : m < 1024) (hw : 9 ≤ w) :
    (m - 2 ^ hb m) * 2 ^ (w - hb m) < 2 ^ w := by
  have hk := hb_spec h1 h2
  have hlt : m - 2 ^ hb m < 2 ^ hb m := by
    have := hk.2.1
    rw [pow_succ] at this
    omega
  calc (m - 2 ^ hb m) * 2 ^ (w - hb m) < 2 ^ hb m * 2 ^ (w - hb m) :=
        mul_lt_mul_of_pos_right hlt (Nat.pos_pow_of_pos _ (by norm_num))
  _ = 2 ^ w := by
        rw [← pow_add]
        congr 1
        have := hk.2.2
        omega

theorem w32q_zero : f16_to_f32 0 = 0 := by
  have := widen32_zero 0 (by norm_num)
  norm_num at this
  exact this

theorem w32q_sub (m : ℕ) (h1 : 1 ≤ m) (h2 : m < 1024) :
    f16_to_f32 m = (103 + hb m) * 2 ^ 23 + (m - 2 ^ hb m) * 2 ^ (23 - hb m) := by
  have := widen32_sub 0 m (by norm_num) h1 (by norm_num; omega)
  norm_num at this
  exact this

theorem w32q_norm (e m : ℕ) (he1 : 1 ≤ e) (he2 : e ≤ 30) (hm : m < 1024) :
    f16_to_f32 (e * 2 ^ 10 + m) = (e + 112) * 2 ^ 23 + m * 2 ^ 13 := by
  have := widen32_norm 0 e m (by norm_num) he1 he2 (by norm_num; omega)
  norm_num at this
  exact this

theorem w32q_inf : f16_to_f32 (31 * 2 ^ 10) = 255 * 2 ^ 23 := by
  have := widen32_inf 0 0 (by norm_num) (by norm_num)
  norm_num at this
  exact this

theorem hb_mono {x y : ℕ} (h1 : 1 ≤ x) (hxy : x ≤ y) (h2 : y < 1024) : hb x ≤ hb y := by
  have hx := hb_spec h1 (by omega)
  have hy := hb_spec (by omega) h2
  by_contra hcon
  have hk : hb y + 1 ≤ hb x := by omega
  have := Nat.pow_le_pow_right (show 0 < 2 by norm_num) hk
  omega

theorem w32_mono {a b : ℕ} (hab : a < b) (hble : b ≤ 31 * 2 ^ 10) :
    f16_to_f32 a < f16_to_f32 b := by
  obtain ⟨ea, ma, hma, rfl⟩ : ∃ e m, m < 1024 ∧ a = e * 2 ^ 10 + m :=
    ⟨a / 2 ^ 10, a % 2 ^ 10, by omega, by omega⟩
  obtain ⟨eb, mb, hmb, rfl⟩ : ∃ e m, m < 1024 ∧ b = e * 2 ^ 10 + m :=
    ⟨b / 2 ^ 10, b % 2 ^ 10, by omega, by omega⟩
  have hea : ea ≤ 30 := by omega
  have heab : ea ≤ eb := by omega
  -- upper bound on the left value, lower bound on the right value
  by_cases hea0 : ea = 0
  · subst hea0
    by_cases hma0 : ma = 0
    · -- left value is zero
      subst hma0
      rw [show (0 * 2 ^ 10 + 0 : ℕ) = 0 from by ring, w32q_zero]
      by_cases heb0 : eb = 0
      · subst heb0
        rw [show (0 * 2 ^ 10 + mb : ℕ) = mb from by ring,
            w32q_sub mb (by omega) (by omega)]
        positivity
      · by_cases heb31 : eb = 31
        · subst heb31
          have : mb = 0 := by omega
          subst this
          rw [show (31 * 2 ^ 10 + 0 : ℕ) = 31 * 2 ^ 10 from by ring, w32q_inf]
          positivity
        · rw [w32q_norm eb mb (by omega) (by omega) hmb]
          positivity
    · -- left value is subnormal
      have hsubL := w32q_sub ma (by omega) (by omega)
      have hchunkL := sub_chunk_lt (m := ma) (w := 23) (by omega) (by omega) (by norm_num)
      have hkL := hb_spec (m := ma) (by omega) (by omega)
      rw [show (0 * 2 ^ 10 + ma : ℕ) = ma from by ring]
      by_cases heb0 : eb = 0
      · -- both subnormal
        subst heb0
        have hmamb : ma < mb := by omega
        have hsubR := w32q_sub mb (by omega) (by omega)
        have hkR := hb_spec (m := mb) (by omega) (by omega)
        have hkmono := hb_mono (x := ma) (y := mb) (by omega) (by omega) (by omega)
        rw [show (0 * 2 ^ 10 + mb : ℕ) = mb from by ring]
        rw [hsubL, hsubR]
        by_cases hk : hb ma = hb mb
        · rw [hk]
          have hstep : ma - 2 ^ hb mb < mb - 2 ^ hb mb := by
            have := hkR.1
            rw [← hk]
            omega
          have hmul : (ma - 2 ^ hb mb) * 2 ^ (23 - hb mb)
              < (mb - 2 ^ hb mb) * 2 ^ (23 - hb mb) :=
            mul_lt_mul_of_pos_right hstep (Nat.pos_pow_of_pos _ (by norm_num))
          omega
        · have hklt : hb ma < hb mb := by omega
          have hub : (ma - 2 ^ hb ma) * 2 ^ (23 - hb ma) < 2 ^ 23 := hchunkL
          have h23 : (104 + hb ma) * 2 ^ 23 ≤ (103 + hb mb) * 2 ^ 23 :=
            Nat.mul_le_mul_right _ (by omega)
          omega
      · -- left subnormal, right normal or infinite
        have hLub : f16_to_f32 ma < 113 * 2 ^ 23 := by
          rw [hsubL]
          have h9 : hb ma ≤ 9 := hkL.2.2
          have : (103 + hb ma) * 2 ^ 23 ≤ 112 * 2 ^ 23 :=
            Nat.mul_le_mul_right _ (by omega)
          omega
        by_cases heb31 : eb = 31
        · subst heb31
          have : mb = 0 := by omega
          subst this
          rw [show (31 * 2 ^ 10 + 0 : ℕ) = 31 * 2 ^ 10 from by ring, w32q_inf]
          omega
        · rw [w32q_norm eb mb (by omega) (by omega) hmb]
          have : 113 * 2 ^ 23 ≤ (eb + 112) * 2 ^ 23 :=
            Nat.mul_le_mul_right _ (by omega)
          omega
  · -- left value is normal
    have hLval := w32q_norm ea ma (by omega) hea hma
    by_cases heb31 : eb = 31
    · subst heb31
      have : mb = 0 := by omega
      subst this
      rw [show (31 * 2 ^ 10 + 0 : ℕ) = 31 * 2 ^ 10 from by ring, w32q_inf, hLval]
      have : (ea + 112) * 2 ^ 23 ≤ 142 * 2 ^ 23 :=
        Nat.mul_le_mul_right _ (by omega)
      omega
    · have hRval := w32q_norm eb mb (by omega) (by omega) hmb
      rw [hLval, hRval]
      by_cases heq : ea = eb
      · subst heq
        have : ma < mb := by omega
        omega
      · have h1 : (ea + 113) * 2 ^ 23 ≤ (eb + 112) * 2 ^ 23 :=
          Nat.mul_le_mul_right _ (by omega)
        omega

theorem w32_le_inf {q : ℕ} (h : q ≤ 31 * 2 ^ 10) : f16_to_f32 q ≤ 255 * 2 ^ 23 := by
  rcases Nat.eq_or_lt_of_le h with heq | hlt
  · rw [heq, w32q_inf]
  · have := w32_mono hlt (le_refl _)
    rw [w32q_inf] at this
    omega

theorem w32_lt_two31 {q : ℕ} (h : q ≤ 31 * 2 ^ 10) : f16_to_f32 q < 2 ^ 31 :=
  lt_of_le_of_lt (w32_le_inf h) (by norm_num)

theorem w32_pos {q : ℕ} (h1 : 1 ≤ q) (h2 : q ≤ 31 * 2 ^ 10) : 0 < f16_to_f32 q := by
  have := w32_mono (a := 0) (b := q) (by omega) h2
  rw [w32q_zero] at this
  exact this

theorem compare_shift (c x y : ℕ) : compare (c + x) (c + y) = compare x y := by
  rcases Nat.lt_trichotomy x y with h | h | h
  · rw [Nat.compare_eq_lt.mpr h, Nat.compare_eq_lt.mpr (by omega)]
  · subst h
    rw [Nat.compare_eq_eq.mpr rfl, Nat.compare_eq_eq.mpr rfl]
  · rw [Nat.compare_eq_gt.mpr h, Nat.compare_eq_gt.mpr (by omega)]

theorem compare_w32 {x y : ℕ} (hx : x ≤ 31 * 2 ^ 10) (hy : y ≤ 31 * 2 ^ 10) :
    compare (f16_to_f32 x) (f16_to_f32 y) = compare x y := by
  rcases Nat.lt_trichotomy x y with h | h | h
  · rw [Nat.compare_eq_lt.mpr h, Nat.compare_eq_lt.mpr (w32_mono h hy)]
  · subst h
    rw [Nat.compare_eq_eq.mpr rfl, Nat.compare_eq_eq.mpr rfl]
  · rw [Nat.compare_eq_gt.mpr h, Nat.compare_eq_gt.mpr (w32_mono h hx)]

theorem w32_sign_decomp (s q : ℕ) (hs : s < 2) (hq : q ≤ 31 * 2 ^ 10) :
    f16_to_f32 (s * 2 ^ 15 + q) = s * 2 ^ 31 + f16_to_f32 q := by
  obtain ⟨e, m, hm, he, rfl⟩ : ∃ e m, m < 1024 ∧ e ≤ 31 ∧ q = e * 2 ^ 10 + m :=
    ⟨q / 2 ^ 10, q % 2 ^ 10, by omega, by omega, by omega⟩
  by_cases he0 : e = 0
  · subst he0
    by_cases hm0 : m = 0
    · subst hm0
      rw [show s * 2 ^ 15 + (0 * 2 ^ 10 + 0) = s * 2 ^ 15 from by ring,
          show (0 * 2 ^ 10 + 0 : ℕ) = 0 from by ring, widen32_zero s hs, w32q_zero]
      omega
    · rw [show s * 2 ^ 15 + (0 * 2 ^ 10 + m) = s * 2 ^ 15 + m from by ring,
          show (0 * 2 ^ 10 + m : ℕ) = m from by ring, widen32_sub s m hs (by omega) (by omega),
          w32q_sub m (by omega) (by omega)]
      omega
  · by_cases he31 : e = 31
    · subst he31
      have hm0 : m = 0 := by omega
      subst hm0
      rw [show s * 2 ^ 15 + (31 * 2 ^ 10 + 0) = s * 2 ^ 15 + 31 * 2 ^ 10 + 0 from by ring,
          show (31 * 2 ^ 10 + 0 : ℕ) = 31 * 2 ^ 10 from by ring,
          widen32_inf s 0 hs (by norm_num), w32q_inf]
      ring
    · rw [show s * 2 ^ 15 + (e * 2 ^ 10 + m) = s * 2 ^ 15 + e * 2 ^ 10 + m from by ring,
          widen32_norm s e m hs (by omega) (by omega) hm,
          w32q_norm e m (by omega) (by omega) hm]
      ring

theorem cmp_widen_agree (a b : ℕ) (ha : a < 65536) (hbb : b < 65536)
    (hna : is_nan a = false) (hnb : is_nan b = false) :
    f16_cmp a b = f32_cmp (f16_to_f32 a) (f16_to_f32 b) := by
  obtain ⟨sa, qa, hsa, hqa, rfl⟩ :
      ∃ s q, s < 2 ∧ q < 2 ^ 15 ∧ a = s * 2 ^ 15 + q :=
    ⟨a / 2 ^ 15, a % 2 ^ 15, by omega, by omega, by omega⟩
  obtain ⟨sb, qb, hsb, hqb, rfl⟩ :
      ∃ s q, s < 2 ∧ q < 2 ^ 15 ∧ b = s * 2 ^ 15 + q :=
    ⟨b / 2 ^ 15, b % 2 ^ 15, by omega, by omega, by omega⟩
  have hqa31 : qa ≤ 31 * 2 ^ 10 := by
    rw [is_nan_arith] at hna
    simp only [decide_eq_false_iff_not, not_lt] at hna
    omega
  have hqb31 : qb ≤ 31 * 2 ^ 10 := by
    rw [is_nan_arith] at hnb
    simp only [decide_eq_false_iff_not, not_lt] at hnb
    omega
  have hWAlt : f16_to_f32 qa < 2 ^ 31 := w32_lt_two31 hqa31
  have hWBlt : f16_to_f32 qb < 2 ^ 31 := w32_lt_two31 hqb31
  have hWAle : f16_to_f32 qa ≤ 255 * 2 ^ 23 := w32_le_inf hqa31
  have hWBle : f16_to_f32 qb ≤ 255 * 2 ^ 23 := w32_le_inf hqb31
  have hWA0 : f16_to_f32 qa = 0 ↔ qa = 0 := by
    constructor
    · intro h
      by_contra hq
      have := w32_pos (q := qa) (by omega) hqa31
      omega
    · intro h
      rw [h, w32q_zero]
  have hWB0 : f16_to_f32 qb = 0 ↔ qb = 0 := by
    constructor
    · intro h
      by_contra hq
      have := w32_pos (q := qb) (by omega) hqb31
      omega
    · intro h
      rw [h, w32q_zero]
  rw [w32_sign_decomp sa qa hsa hqa31, w32_sign_decomp sb qb hsb hqb31]
  unfold f16_cmp f32_cmp
  rw [if_neg (show ¬((is_nan (sa * 2 ^ 15 + qa) || is_nan (sb * 2 ^ 15 + qb)) = true) from by
        rw [hna, hnb]; simp)]
  rw [if_neg (show ¬((is_nan32 (sa * 2 ^ 31 + f16_to_f32 qa)
          || is_nan32 (sb * 2 ^ 31 + f16_to_f32 qb)) = true) from by
        rw [is_nan32_arith, is_nan32_arith]
        simp only [Bool.or_eq_true, decide_eq_true_eq]
        push_neg
        constructor <;> omega)]
  by_cases hsa0 : sa = 0
  · subst hsa0
    rw [if_pos (show ((0 * 2 ^ 15 + qa) &&& 0x8000 == 0) = true from by
          rw [sign_arith]
          simp only [decide_eq_true_eq]
          omega),
        if_pos (show ((0 * 2 ^ 31 + f16_to_f32 qa) &&& 0x80000000 == 0) = true from by
          rw [sign32_arith]
          simp only [decide_eq_true_eq]
          omega)]
    by_cases hsb0 : sb = 0
    · subst hsb0
      rw [if_pos (show ((0 * 2 ^ 15 + qb) &&& 0x8000 == 0) = true from by
            rw [sign_arith]
            simp only [decide_eq_true_eq]
            omega),
          if_pos (show ((0 * 2 ^ 31 + f16_to_f32 qb) &&& 0x80000000 == 0) = true from by
            rw [sign32_arith]
            simp only [decide_eq_true_eq]
            omega),
          show (0 * 2 ^ 15 + qa : ℕ) = qa from by ring,
          show (0 * 2 ^ 15 + qb : ℕ) = qb from by ring,
          show (0 * 2 ^ 31 + f16_to_f32 qa : ℕ) = f16_to_f32 qa from by ring,
          show (0 * 2 ^ 31 + f16_to_f32 qb : ℕ) = f16_to_f32 qb from by ring,
          compare_w32 hqa31 hqb31]
    · have hsb1 : sb = 1 := by omega
      subst hsb1
      rw [if_neg (show ¬(((1 * 2 ^ 15 + qb) &&& 0x8000 == 0) = true) from by
            rw [sign_arith]
            simp only [decide_eq_true_eq]
            omega),
          if_neg (show ¬(((1 * 2 ^ 31 + f16_to_f32 qb) &&& 0x80000000 == 0) = true) from by
            rw [sign32_arith]
            simp only [decide_eq_true_eq]
            omega),
          show (((0 * 2 ^ 15 + qa) ||| (1 * 2 ^ 15 + qb)) &&& 0x7FFF == 0)
            = decide (qa = 0 ∧ qb = 0) from by
            rw [ormask_arith]
            exact decide_eq_decide.mpr (by omega),
          show (((0 * 2 ^ 31 + f16_to_f32 qa) ||| (1 * 2 ^ 31 + f16_to_f32 qb))
              &&& 0x7FFFFFFF == 0) = decide (qa = 0 ∧ qb = 0) from by
            rw [ormask32_arith]
            refine decide_eq_decide.mpr ⟨fun h => ⟨hWA0.mp (by omega), hWB0.mp (by omega)⟩,
              fun h => ?_⟩
            have e1 := hWA0.mpr h.1
            have e2 := hWB0.mpr h.2
            omega]
  · have hsa1 : sa = 1 := by omega
    subst hsa1
    rw [if_neg (show ¬(((1 * 2 ^ 15 + qa) &&& 0x8000 == 0) = true) from by
          rw [sign_arith]
          simp only [decide_eq_true_eq]
          omega),
        if_neg (show ¬(((1 * 2 ^ 31 + f16_to_f32 qa) &&& 0x80000000 == 0) = true) from by
          rw [sign32_arith]
          simp only [decide_eq_true_eq]
          omega)]
    by_cases hsb0 : sb = 0
    · subst hsb0
      rw [if_pos (show ((0 * 2 ^ 15 + qb) &&& 0x8000 == 0) = true from by
            rw [sign_arith]
            simp only [decide_eq_true_eq]
            omega),
          if_pos (show ((0 * 2 ^ 31 + f16_to_f32 qb) &&& 0x80000000 == 0) = true from by
            rw [sign32_arith]
            simp only [decide_eq_true_eq]
            omega),
          show (((1 * 2 ^ 15 + qa) ||| (0 * 2 ^ 15 + qb)) &&& 0x7FFF == 0)
            = decide (qa = 0 ∧ qb = 0) from by
            rw [ormask_arith]
            exact decide_eq_decide.mpr (by omega),
          show (((1 * 2 ^ 31 + f16_to_f32 qa) ||| (0 * 2 ^ 31 + f16_to_f32 qb))
              &&& 0x7FFFFFFF == 0) = decide (qa = 0 ∧ qb = 0) from by
            rw [ormask32_arith]
            refine decide_eq_decide.mpr ⟨fun h => ⟨hWA0.mp (by omega), hWB0.mp (by omega)⟩,
              fun h => ?_⟩
            have e1 := hWA0.mpr h.1
            have e2 := hWB0.mpr h.2
            omega]
    · have hsb1 : sb = 1 := by omega
      subst hsb1
      rw [if_neg (show ¬(((1 * 2 ^ 15 + qb) &&& 0x8000 == 0) = true) from by
            rw [sign_arith]
            simp only [decide_eq_true_eq]
            omega),
          if_neg (show ¬(((1 * 2 ^ 31 + f16_to_f32 qb) &&& 0x80000000 == 0) = true) from by
            rw [sign32_arith]
            simp only [decide_eq_true_eq]
            omega),
          show (1 * 2 ^ 15 + qa : ℕ) = 2 ^ 15 + qa from by ring,
          show (1 * 2 ^ 15 + qb : ℕ) = 2 ^ 15 + qb from by ring,
          show (1 * 2 ^ 31 + f16_to_f32 qa : ℕ) = 2 ^ 31 + f16_to_f32 qa from by ring,
          show (1 * 2 ^ 31 + f16_to_f32 qb : ℕ) = 2 ^ 31 + f16_to_f32 qb from by ring,
          compare_shift, compare_shift, compare_w32 hqb31 hqa31]

/-! Each case-split comparison operator of the source against the 3-way
comparison. -/

theorem lt_iff_cmp (a b : ℕ) : f16_lt a b = true ↔ f16_cmp a b = some Ordering.lt := by
  unfold f16_lt f16_cmp
  by_cases h1 : (is_nan a || is_nan b) = true
  · rw [if_pos h1, if_pos h1]
    simp
  · rw [if_neg h1, if_neg h1]
    by_cases h2 : (a &&& 0x8000 == 0) = true
    · rw [if_pos h2, if_pos h2]
      by_cases h3 : (b &&& 0x8000 == 0) = true
      · rw [if_pos h3, if_pos h3]
        simp [Nat.compare_eq_lt]
      · rw [if_neg h3, if_neg h3]
        by_cases h4 : ((a ||| b) &&& 0x7FFF == 0) = true
        · rw [if_pos h4]
          simp
        · rw [if_neg h4]
          simp
    · rw [if_neg h2, if_neg h2]
      by_cases h3 : (b &&& 0x8000 == 0) = true
      · rw [if_pos h3, if_pos h3]
        by_cases h4 : ((a ||| b) &&& 0x7FFF == 0) = true
        · rw [if_pos h4]
          simp [bne, h4]
        · rw [if_neg h4]
          have h4' : ((a ||| b) &&& 0x7FFF == 0) = false := Bool.eq_false_iff.mpr h4
          simp [bne, h4']
      · rw [if_neg h3, if_neg h3]
        simp [Nat.compare_eq_lt]

theorem gt_iff_cmp (a b : ℕ) : f16_gt a b = true ↔ f16_cmp a b = some Ordering.gt := by
  unfold f16_gt f16_cmp
  by_cases h1 : (is_nan a || is_nan b) = true
  · rw [if_pos h1, if_pos h1]
    simp
  · rw [if_neg h1, if_neg h1]
    by_cases h2 : (a &&& 0x8000 == 0) = true
    · rw [if_pos h2, if_pos h2]
      by_cases h3 : (b &&& 0x8000 == 0) = true
      · rw [if_pos h3, if_pos h3]
        simp [Nat.compare_eq_gt]
      · rw [if_neg h3, if_neg h3]
        by_cases h4 : ((a ||| b) &&& 0x7FFF == 0) = true
        · rw [if_pos h4]
          simp [bne, h4]
        · rw [if_neg h4]
          have h4' : ((a ||| b) &&& 0x7FFF == 0) = false := Bool.eq_false_iff.mpr h4
          simp [bne, h4']
    · rw [if_neg h2, if_neg h2]
      by_cases h3 : (b &&& 0x8000 == 0) = true
      · rw [if_pos h3, if_pos h3]
        by_cases h4 : ((a ||| b) &&& 0x7FFF == 0) = true
        · rw [if_pos h4]
          simp
        · rw [if_neg h4]
          simp
      · rw [if_neg h3, if_neg h3]
        simp [Nat.compare_eq_gt]

theorem le_iff_cmp (a b : ℕ) :
    f16_le a b = true ↔
      f16_cmp a b = some Ordering.lt ∨ f16_cmp a b = some Ordering.eq := by
  unfold f16_le f16_cmp
  by_cases h1 : (is_nan a || is_nan b) = true
  · rw [if_pos h1, if_pos h1]
    simp
  · rw [if_neg h1, if_neg h1]
    by_cases h2 : (a &&& 0x8000 == 0) = true
    · rw [if_pos h2, if_pos h2]
      by_cases h3 : (b &&& 0x8000 == 0) = true
      · rw [if_pos h3, if_pos h3]
        simp only [decide_eq_true_eq, Option.some.injEq]
        rw [Nat.compare_def_lt]
        split_ifs with hlt hgt
        · simp
          omega
        · simp
          omega
        · simp
          omega
      · rw [if_neg h3, if_neg h3]
        by_cases h4 : ((a ||| b) &&& 0x7FFF == 0) = true
        · rw [if_pos h4]
          simp [h4]
        · rw [if_neg h4]
          have h4' : ((a ||| b) &&& 0x7FFF == 0) = false := Bool.eq_false_iff.mpr h4
          simp [h4']
    · rw [if_neg h2, if_neg h2]
      by_cases h3 : (b &&& 0x8000 == 0) = true
      · rw [if_pos h3, if_pos h3]
        by_cases h4 : ((a ||| b) &&& 0x7FFF == 0) = true
        · rw [if_pos h4]
          simp
        · rw [if_neg h4]
          simp
      · rw [if_neg h3, if_neg h3]
        simp only [decide_eq_true_eq, Option.some.injEq]
        rw [Nat.compare_def_lt]
        split_ifs with hlt hgt
        · simp
          omega
        · simp
          omega
        · simp
          omega

theorem ge_iff_cmp (a b : ℕ) :
    f16_ge a b = true ↔
      f16_cmp a b = some Ordering.gt ∨ f16_cmp a b = some Ordering.eq := by
  unfold f16_ge f16_cmp
  by_cases h1 : (is_nan a || is_nan b) = true
  · rw [if_pos h1, if_pos h1]
    simp
  · rw [if_neg h1, if_neg h1]
    by_cases h2 : (a &&& 0x8000 == 0) = true
    · rw [if_pos h2, if_pos h2]
      by_cases h3 : (b &&& 0x8000 == 0) = true
      · rw [if_pos h3, if_pos h3]
        simp only [decide_eq_true_eq, Option.some.injEq]
        rw [Nat.compare_def_lt]
        split_ifs with hlt hgt
        · simp
          omega
        · simp
          omega
        · simp
          omega
      · rw [if_neg h3, if_neg h3]
        by_cases h4 : ((a ||| b) &&& 0x7FFF == 0) = true
        · rw [if_pos h4]
          simp
        · rw [if_neg h4]
          simp
    · rw [if_neg h2, if_neg h2]
      by_cases h3 : (b &&& 0x8000 == 0) = true
      · rw [if_pos h3, if_pos h3]
        by_cases h4 : ((a ||| b) &&& 0x7FFF == 0) = true
        · rw [if_pos h4]
          simp [h4]
        · rw [if_neg h4]
          have h4' : ((a ||| b) &&& 0x7FFF == 0) = false := Bool.eq_false_iff.mpr h4
          simp [h4']
      · rw [if_neg h3, if_neg h3]
        simp only [decide_eq_true_eq, Option.some.injEq]
        rw [Nat.compare_def_lt]
        split_ifs with hlt hgt
        · simp
          omega
        · simp
          omega
        · simp
          omega

theorem eq_iff_cmp (a b : ℕ) (ha : a < 65536) (hbb : b < 65536) :
    f16_eq a b = true ↔ f16_cmp a b = some Ordering.eq := by
  unfold f16_eq f16_cmp
  by_cases h1 : (is_nan a || is_nan b) = true
  · rw [if_pos h1, if_pos h1]
    simp
  · rw [if_neg h1, if_neg h1]
    by_cases h2 : (a &&& 0x8000 == 0) = true
    · have h2' : a / 0x8000 % 2 = 0 := by
        rw [sign_arith] at h2
        simpa using h2
      rw [if_pos h2]
      by_cases h3 : (b &&& 0x8000 == 0) = true
      · have h3' : b / 0x8000 % 2 = 0 := by
          rw [sign_arith] at h3
          simpa using h3
        rw [if_pos h3, beq_decide, ormask_arith]
        simp only [Bool.or_eq_true, decide_eq_true_eq, Option.some.injEq]
        rw [Nat.compare_eq_eq]
        omega
      · have h3' : b / 0x8000 % 2 = 1 := by
          rw [sign_arith] at h3
          simp at h3
          omega
        rw [if_neg h3, beq_decide, ormask_arith]
        by_cases h4 : a % 0x8000 = 0 ∧ b % 0x8000 = 0
        · rw [if_pos (by simpa using h4)]
          simp only [Bool.or_eq_true, decide_eq_true_eq]
          constructor
          · intro _
            trivial
          · intro _
            right
            exact h4
        · rw [if_neg (by simpa using h4)]
          simp only [Bool.or_eq_true, decide_eq_true_eq]
          constructor
          · intro h
            rcases h with h | h
            · omega
            · exact absurd h h4
          · intro h
            simp at h
    · have h2' : a / 0x8000 % 2 = 1 := by
        rw [sign_arith] at h2
        simp at h2
        omega
      rw [if_neg h2]
      by_cases h3 : (b &&& 0x8000 == 0) = true
      · have h3' : b / 0x8000 % 2 = 0 := by
          rw [sign_arith] at h3
          simpa using h3
        rw [if_pos h3, beq_decide, ormask_arith]
        by_cases h4 : a % 0x8000 = 0 ∧ b % 0x8000 = 0
        · rw [if_pos (by simpa using h4)]
          simp only [Bool.or_eq_true, decide_eq_true_eq]
          constructor
          · intro _
            trivial
          · intro _
            right
            exact h4
        · rw [if_neg (by simpa using h4)]
          simp only [Bool.or_eq_true, decide_eq_true_eq]
          constructor
          · intro h
            rcases h with h | h
            · omega
            · exact absurd h h4
          · intro h
            simp at h
      · have h3' : b / 0x8000 % 2 = 1 := by
          rw [sign_arith] at h3
          simp at h3
          omega
        rw [if_neg h3, beq_decide, ormask_arith]
        simp only [Bool.or_eq_true, decide_eq_true_eq, Option.some.injEq]
        rw [Nat.compare_eq_eq]
        omega

theorem is_nan64_arith (x : ℕ) :
    is_nan64 x = decide (0x7FF0000000000000 < x % 0x8000000000000000) := by
  unfold is_nan64
  rw [show (0x7FFFFFFFFFFFFFFF : ℕ) = 2 ^ 63 - 1 by norm_num, and_mask]
  exact decide_eq_decide.mpr (by norm_num)

theorem lor_quiet (v : ℕ) (hv : v < 1024) : 0x200 ||| v = 0x200 + v % 0x200 := by
  apply Nat.eq_of_testBit_eq
  intro i
  rw [Nat.testBit_lor, show (0x200 : ℕ) = 2 ^ 9 from by norm_num]
  rcases Nat.lt_trichotomy i 9 with h | h | h
  · rw [Nat.testBit_two_pow_of_ne (by omega), Nat.testBit_two_pow_add_gt h]
    have hbit : (v % 2 ^ 9).testBit i = v.testBit i := by
      rw [Nat.testBit_mod_two_pow]
      simp [h]
    rw [hbit]
    simp
  · subst h
    rw [Nat.testBit_two_pow_self, Nat.testBit_two_pow_add_eq,
        Nat.testBit_lt_two_pow (show v % 2 ^ 9 < 2 ^ 9 from by omega)]
    simp
  · have hple : (2 : ℕ) ^ 10 ≤ 2 ^ i := Nat.pow_le_pow_right (by norm_num) (by omega)
    rw [Nat.testBit_two_pow_of_ne (by omega),
        Nat.testBit_lt_two_pow (show v < 2 ^ i from by omega),
        Nat.testBit_lt_two_pow (show 2 ^ 9 + v % 2 ^ 9 < 2 ^ i from by omega)]
    simp

theorem cmp_none_iff (a b : ℕ) :
    f16_cmp a b = none ↔ (is_nan a = true ∨ is_nan b = true) := by
  unfold f16_cmp
  by_cases h1 : (is_nan a || is_nan b) = true
  · rw [if_pos h1]
    simpa using h1
  · rw [if_neg h1]
    simp only [Bool.or_eq_true, not_or, Bool.not_eq_true] at h1
    split_ifs <;> simp [h1.1, h1.2]

/-! Range facts: every conversion yields an in-range bit pattern. -/

theorem roundUp_le (man rb : ℕ) : roundUp man rb ≤ 1 := by
  unfold roundUp
  split_ifs <;> omega

theorem narrow32_lt (x : ℕ) (hx : x < 2 ^ 32) : f32_to_f16 x < 65536 := by
  obtain ⟨s, e, m, hs, he, hm, rfl⟩ :
      ∃ s e m, s < 2 ∧ e ≤ 255 ∧ m < 2 ^ 23 ∧ x = s * 2 ^ 31 + e * 2 ^ 23 + m :=
    ⟨x / 2 ^ 31, x / 2 ^ 23 % 2 ^ 8, x % 2 ^ 23, by omega, by omega, by omega, by omega⟩
  by_cases he255 : e = 255
  · subst he255
    by_cases hm0 : m = 0
    · subst hm0
      rw [show s * 2 ^ 31 + 255 * 2 ^ 23 + 0 = s * 2 ^ 31 + 255 * 2 ^ 23 from by ring,
          narrow32_inf s hs]
      omega
    · rw [narrow32_nan s m hs (by omega) hm]
      by_cases hq : m / 2 ^ 13 < 0x200
      · rw [if_pos hq]
        omega
      · rw [if_neg hq]
        have : m / 2 ^ 13 < 1024 := by omega
        omega
  · by_cases ho : 143 ≤ e
    · rw [narrow32_over s e m hs ho (by omega) hm]
      omega
    · by_cases hn : 113 ≤ e
      · rw [narrow32_normal s e m hs hn (by omega) hm]
        have h1 := roundUp_le m 12
        have h2 : m / 2 ^ 13 < 1024 := by omega
        have h3 : (e - 112) * 2 ^ 10 ≤ 30 * 2 ^ 10 := Nat.mul_le_mul_right _ (by omega)
        omega
      · by_cases hsb : 102 ≤ e
        · rw [narrow32_sub s e m hs hsb (by omega) hm]
          have h1 := roundUp_le (2 ^ 23 + m) (125 - e)
          have h2 : (2 ^ 23 + m) / 2 ^ (126 - e) ≤ (2 ^ 23 + m) / 2 ^ 14 := by
            apply Nat.div_le_div_left
            · exact Nat.pow_le_pow_right (by norm_num) (by omega)
            · positivity
          have h3 : (2 ^ 23 + m) / 2 ^ 14 < 1024 := by omega
          omega
        · rw [narrow32_under s e m hs (by omega) hm]
          omega

theorem narrow64_lt (x : ℕ) (hx : x < 2 ^ 64) : f64_to_f16 x < 65536 := by
  obtain ⟨s, e, m, hs, he, hm, rfl⟩ :
      ∃ s e m, s < 2 ∧ e ≤ 2047 ∧ m < 2 ^ 52 ∧ x = s * 2 ^ 63 + e * 2 ^ 52 + m :=
    ⟨x / 2 ^ 63, x / 2 ^ 52 % 2 ^ 11, x % 2 ^ 52, by omega, by omega, by omega, by omega⟩
  by_cases he2047 : e = 2047
  · subst he2047
    by_cases hm0 : m = 0
    · subst hm0
      rw [show s * 2 ^ 63 + 2047 * 2 ^ 52 + 0 = s * 2 ^ 63 + 2047 * 2 ^ 52 from by ring,
          narrow64_inf s hs]
      omega
    · rw [narrow64_nan s m hs (by omega) hm]
      by_cases hq : m / 2 ^ 42 < 0x200
      · rw [if_pos hq]
        omega
      · rw [if_neg hq]
        have : m / 2 ^ 42 < 1024 := by omega
        omega
  · by_cases ho : 1039 ≤ e
    · rw [narrow64_over s e m hs ho (by omega) hm]
      omega
    · by_cases hn : 1009 ≤ e
      · rw [narrow64_normal s e m hs hn (by omega) hm]
        have h1 := roundUp_le m 41
        have h2 : m / 2 ^ 42 < 1024 := by omega
        have h3 : (e - 1008) * 2 ^ 10 ≤ 30 * 2 ^ 10 := Nat.mul_le_mul_right _ (by omega)
        omega
      · by_cases hsb : 998 ≤ e
        · rw [narrow64_sub s e m hs hsb (by omega) hm]
          have h1 := roundUp_le (2 ^ 52 + m) (1050 - e)
          have h2 : (2 ^ 52 + m) / 2 ^ (1051 - e) ≤ (2 ^ 52 + m) / 2 ^ 43 := by
            apply Nat.div_le_div_left
            · exact Nat.pow_le_pow_right (by norm_num) (by omega)
            · positivity
          have h3 : (2 ^ 52 + m) / 2 ^ 43 < 1024 := by omega
          omega
        · rw [narrow64_under s e m hs (by omega) hm]
          omega

theorem widen32_lt (p : ℕ) (hp : p < 65536) : f16_to_f32 p < 2 ^ 32 := by
  obtain ⟨s, e, m, hs, he, hm, rfl⟩ :
      ∃ s e m, s < 2 ∧ e ≤ 31 ∧ m < 1024 ∧ p = s * 2 ^ 15 + e * 2 ^ 10 + m :=
    ⟨p / 2 ^ 15, p / 2 ^ 10 % 32, p % 1024, by omega, by omega, by omega, by omega⟩
  by_cases he0 : e = 0
  · subst he0
    by_cases hm0 : m = 0
    · subst hm0
      rw [show s * 2 ^ 15 + 0 * 2 ^ 10 + 0 = s * 2 ^ 15 from by ring, widen32_zero s hs]
      omega
    · rw [show s * 2 ^ 15 + 0 * 2 ^ 10 + m = s * 2 ^ 15 + m from by ring,
          widen32_sub s m hs (by omega) (by omega)]
      have h1 := sub_chunk_lt (m := m) (w := 23) (by omega) (by omega) (by norm_num)
      have h2 := (hb_spec (m := m) (by omega) (by omega)).2.2
      have h3 : (103 + hb m) * 2 ^ 23 ≤ 112 * 2 ^ 23 := Nat.mul_le_mul_right _ (by omega)
      omega
  · by_cases he31 : e = 31
    · subst he31
      rw [widen32_inf s m hs hm]
      omega
    · rw [widen32_norm s e m hs (by omega) (by omega) hm]
      have h3 : (e + 112) * 2 ^ 23 ≤ 142 * 2 ^ 23 := Nat.mul_le_mul_right _ (by omega)
      omega

theorem widen64_lt (p : ℕ) (hp : p < 65536) : f16_to_f64 p < 2 ^ 64 := by
  obtain ⟨s, e, m, hs, he, hm, rfl⟩ :
      ∃ s e m, s < 2 ∧ e ≤ 31 ∧ m < 1024 ∧ p = s * 2 ^ 15 + e * 2 ^ 10 + m :=
    ⟨p / 2 ^ 15, p / 2 ^ 10 % 32, p % 1024, by omega, by omega, by omega, by omega⟩
  by_cases he0 : e = 0
  · subst he0
    by_cases hm0 : m = 0
    · subst hm0
      rw [show s * 2 ^ 15 + 0 * 2 ^ 10 + 0 = s * 2 ^ 15 from by ring, widen64_zero s hs]
      omega
    · rw [show s * 2 ^ 15 + 0 * 2 ^ 10 + m = s * 2 ^ 15 + m from by ring,
          widen64_sub s m hs (by omega) (by omega)]
      have h1 := sub_chunk_lt (m := m) (w := 52) (by omega) (by omega) (by norm_num)
      have h2 := (hb_spec (m := m) (by omega) (by omega)).2.2
      have h3 : (999 + hb m) * 2 ^ 52 ≤ 1008 * 2 ^ 52 := Nat.mul_le_mul_right _ (by omega)
      omega
  · by_cases he31 : e = 31
    · subst he31
      rw [widen64_inf s m hs hm]
      omega
    · rw [widen64_norm s e m hs (by omega) (by omega) hm]
      have h3 : (e + 1008) * 2 ^ 52 ≤ 1038 * 2 ^ 52 := Nat.mul_le_mul_right _ (by omega)
      omega

/-! The claims. -/

/-- Claim C1: for every 16-bit pattern `p` that is not NaN, narrowing the
widened value (through 32 bits and through 64 bits) gives back a pattern
bit-identical to `p`; for every NaN pattern the round-tripped result still
classifies as NaN and keeps the sign bit (`p / 2 ^ 15`). -/
theorem claim_C1_roundtrip (p : ℕ) (hp : p < 65536) :
    (is_nan p = false →
      f32_to_f16 (f16_to_f32 p) = p ∧ f64_to_f16 (f16_to_f64 p) = p) ∧
    (is_nan p = true →
      is_nan (f32_to_f16 (f16_to_f32 p)) = true ∧
      f32_to_f16 (f16_to_f32 p) / 2 ^ 15 = p / 2 ^ 15 ∧
      is_nan (f64_to_f16 (f16_to_f64 p)) = true ∧
      f64_to_f16 (f16_to_f64 p) / 2 ^ 15 = p / 2 ^ 15) :=
  ⟨fun h => ⟨rt32_id p hp h, rt64_id p hp h⟩,
   fun h => ⟨(rt32_nan p hp h).1, (rt32_nan p hp h).2,
     (rt64_nan p hp h).1, (rt64_nan p hp h).2⟩⟩

/-- Witness for C1 at the patterns 0x3C01 (non-NaN) and 0xFE01 (NaN). -/
theorem claim_C1_roundtrip_witness :
    (f32_to_f16 (f16_to_f32 0x3C01) = 0x3C01 ∧ f64_to_f16 (f16_to_f64 0x3C01) = 0x3C01) ∧
    (is_nan (f32_to_f16 (f16_to_f32 0xFE01)) = true ∧
      f32_to_f16 (f16_to_f32 0xFE01) / 2 ^ 15 = 0xFE01 / 2 ^ 15) :=
  ⟨(claim_C1_roundtrip 0x3C01 (by decide)).1 (by decide),
   ⟨((claim_C1_roundtrip 0xFE01 (by decide)).2 (by decide)).1,
    ((claim_C1_roundtrip 0xFE01 (by decide)).2 (by decide)).2.1⟩⟩

/-- Claim C2: equality holds exactly when the patterns are identical or the
bitwise OR of both patterns masked to the lower 15 bits is zero, except that
any NaN operand makes it false; in particular every NaN is unequal to
itself. -/
theorem claim_C2_equality (a b : ℕ) (ha : a < 65536) (hbb : b < 65536) :
    (f16_eq a b = true ↔
      ((a = b ∨ (a ||| b) &&& 0x7FFF = 0) ∧ is_nan a = false ∧ is_nan b = false)) ∧
    (is_nan a = true → f16_eq a a = false) := by
  constructor
  · unfold f16_eq
    by_cases h1 : (is_nan a || is_nan b) = true
    · rw [if_pos h1]
      simp only [Bool.or_eq_true] at h1
      rcases h1 with h | h <;> simp [h]
    · have h1' : is_nan a = false ∧ is_nan b = false := by
        simp only [Bool.or_eq_true, not_or, Bool.not_eq_true] at h1
        exact h1
      rw [if_neg h1, h1'.1, h1'.2]
      simp only [Bool.or_eq_true, beq_iff_eq]
      simp
  · intro h
    unfold f16_eq
    rw [if_pos (by rw [h]; rfl)]

/-- Witness for C2 at the NaN pattern 0x7E00 and the pair (1, 1). -/
theorem claim_C2_equality_witness :
    f16_eq 0x7E00 0x7E00 = false ∧
    (f16_eq 1 1 = true ↔
      (((1 : ℕ) = 1 ∨ ((1 : ℕ) ||| 1) &&& 0x7FFF = 0) ∧
        is_nan 1 = false ∧ is_nan 1 = false)) :=
  ⟨(claim_C2_equality 0x7E00 0x7E00 (by decide) (by decide)).2 (by decide),
   (claim_C2_equality 1 1 (by decide) (by decide)).1⟩

/-- Claim C5: every finite 32-bit (respectively 64-bit) pattern whose
magnitude is at or above the half-precision overflow threshold (the bit
pattern of 65520.0, the midpoint between the largest finite half value and
2 ^ 16) narrows to the signed-infinity pattern carrying the input's sign
bit. -/
theorem claim_C5_saturation (x y : ℕ) (hx : x < 2 ^ 32)
    (hfinx : x % 2 ^ 31 < 0x7F800000) (hbigx : 0x477FF000 ≤ x % 2 ^ 31)
    (hy : y < 2 ^ 64) (hfiny : y % 2 ^ 63 < 0x7FF0000000000000)
    (hbigy : 0x40EFFE0000000000 ≤ y % 2 ^ 63) :
    f32_to_f16 x = x / 2 ^ 31 * 2 ^ 15 + 0x7C00 ∧
    f64_to_f16 y = y / 2 ^ 63 * 2 ^ 15 + 0x7C00 := by
  constructor
  · obtain ⟨s, e, m, hs, he, hm, rfl⟩ :
        ∃ s e m, s < 2 ∧ e ≤ 255 ∧ m < 2 ^ 23 ∧ x = s * 2 ^ 31 + e * 2 ^ 23 + m :=
      ⟨x / 2 ^ 31, x / 2 ^ 23 % 2 ^ 8, x % 2 ^ 23, by omega, by omega, by omega, by omega⟩
    rw [show (s * 2 ^ 31 + e * 2 ^ 23 + m) / 2 ^ 31 = s from by omega]
    have hfe : e ≤ 254 := by omega
    by_cases ho : 143 ≤ e
    · rw [narrow32_over s e m hs ho hfe hm]
    · have he142 : e = 142 := by omega
      subst he142
      have hm' : 0x7FF000 ≤ m := by omega
      rw [narrow32_normal s 142 m hs (by norm_num) (by norm_num) hm]
      have hdiv : m / 2 ^ 13 = 1023 := by omega
      have hrd : roundUp m 12 = 1 := by
        unfold roundUp
        rw [if_pos ⟨by omega, Or.inr (by omega)⟩]
      rw [hdiv, hrd]
      omega
  · obtain ⟨s, e, m, hs, he, hm, rfl⟩ :
        ∃ s e m, s < 2 ∧ e ≤ 2047 ∧ m < 2 ^ 52 ∧ y = s * 2 ^ 63 + e * 2 ^ 52 + m :=
      ⟨y / 2 ^ 63, y / 2 ^ 52 % 2 ^ 11, y % 2 ^ 52, by omega, by omega, by omega, by omega⟩
    rw [show (s * 2 ^ 63 + e * 2 ^ 52 + m) / 2 ^ 63 = s from by omega]
    have hfe : e ≤ 2046 := by omega
    by_cases ho : 1039 ≤ e
    · rw [narrow64_over s e m hs ho hfe hm]
    · have he1038 : e = 1038 := by omega
      subst he1038
      have hm' : 0xFFE0000000000 ≤ m := by omega
      rw [narrow64_normal s 1038 m hs (by norm_num) (by norm_num) hm]
      have hdiv : m / 2 ^ 42 = 1023 := by omega
      have hrd : roundUp m 41 = 1 := by
        unfold roundUp
        rw [if_pos ⟨by omega, Or.inr (by omega)⟩]
      rw [hdiv, hrd]
      omega

/-- Witness for C5 at the threshold patterns of 65520.0 (32- and 64-bit). -/
theorem claim_C5_saturation_witness :
    f32_to_f16 0x477FF000 = 0x477FF000 / 2 ^ 31 * 2 ^ 15 + 0x7C00 ∧
    f64_to_f16 0x40EFFE0000000000 = 0x40EFFE0000000000 / 2 ^ 63 * 2 ^ 15 + 0x7C00 :=
  claim_C5_saturation 0x477FF000 0x40EFFE0000000000 (by decide) (by decide) (by decide)
    (by decide) (by decide) (by decide)

/-- Claim C6: widening 0x3C00 gives exactly the 32-bit pattern of 1.0, and
the two documented ties-to-even scenarios hold: 2000.5 (bits 0x44FA1000)
narrows to the same pattern as 2000.0 (bits 0x44FA0000), and 2001.5 (bits
0x44FA3000) narrows to the same pattern as 2002.0 (bits 0x44FA4000). -/
theorem claim_C6_scenarios :
    f16_to_f32 0x3C00 = 0x3F800000 ∧
    f32_to_f16 0x44FA1000 = f32_to_f16 0x44FA0000 ∧
    f32_to_f16 0x44FA3000 = f32_to_f16 0x44FA4000 := by
  decide

/-- Counterexample for C7: 1.5 * 2 ^ (-24) (32-bit pattern 0x33C00000)
narrows to 0x0002, not to 0x0000 as the claim states. -/
theorem claim_C7_counterexample :
    f32_to_f16 0x33C00000 = 0x0002 ∧ f32_to_f16 0x33C00000 ≠ 0x0000 := by
  decide

/-- Claim C7 as amended: 1.5 * 2 ^ (-24) is an exact tie between subnormal
mantissas 1 and 2 and rounds to the even mantissa 2 (pattern 0x0002), and
2.5 * 2 ^ (-24) (pattern 0x34200000) is a tie between mantissas 2 and 3 and
also rounds to the even mantissa 2 (pattern 0x0002). -/
theorem claim_C7_amended :
    f32_to_f16 0x33C00000 = 0x0002 ∧ f32_to_f16 0x34200000 = 0x0002 := by
  decide

/-- Claim C3: the 3-way comparison is `none` exactly when an operand is NaN;
for non-NaN operands it returns `some` of exactly one of the three orderings,
that outcome coincides with the IEEE comparison of the two operands widened
to 32 bits, and exactly one of the three strict relations
less / equal / greater holds. -/
theorem claim_C3_ordering (a b : ℕ) (ha : a < 65536) (hbb : b < 65536) :
    (f16_cmp a b = none ↔ (is_nan a = true ∨ is_nan b = true)) ∧
    (is_nan a = false → is_nan b = false →
      (f16_cmp a b = some Ordering.lt ∨ f16_cmp a b = some Ordering.eq ∨
        f16_cmp a b = some Ordering.gt) ∧
      f16_cmp a b = f32_cmp (f16_to_f32 a) (f16_to_f32 b) ∧
      (f16_lt a b).toNat + (f16_eq a b).toNat + (f16_gt a b).toNat = 1) := by
  refine ⟨cmp_none_iff a b, fun hna hnb => ?_⟩
  have hnn : f16_cmp a b ≠ none := fun hcc => by
    rcases (cmp_none_iff a b).mp hcc with h | h
    · simp [hna] at h
    · simp [hnb] at h
  have htri : f16_cmp a b = some Ordering.lt ∨ f16_cmp a b = some Ordering.eq ∨
      f16_cmp a b = some Ordering.gt := by
    rcases hc : f16_cmp a b with _ | o
    · exact absurd hc hnn
    · cases o
      · exact Or.inl rfl
      · exact Or.inr (Or.inl rfl)
      · exact Or.inr (Or.inr rfl)
  refine ⟨htri, cmp_widen_agree a b ha hbb hna hnb, ?_⟩
  have hlt := lt_iff_cmp a b
  have heqq := eq_iff_cmp a b ha hbb
  have hgt := gt_iff_cmp a b
  rcases htri with h | h | h
  · have e1 : f16_lt a b = true := hlt.mpr h
    have e2 : f16_eq a b = false := by
      cases hx : f16_eq a b
      · rfl
      · exfalso
        have := heqq.mp hx
        rw [h] at this
        simp at this
    have e3 : f16_gt a b = false := by
      cases hx : f16_gt a b
      · rfl
      · exfalso
        have := hgt.mp hx
        rw [h] at this
        simp at this
    rw [e1, e2, e3]
    rfl
  · have e1 : f16_lt a b = false := by
      cases hx : f16_lt a b
      · rfl
      · exfalso
        have := hlt.mp hx
        rw [h] at this
        simp at this
    have e2 : f16_eq a b = true := heqq.mpr h
    have e3 : f16_gt a b = false := by
      cases hx : f16_gt a b
      · rfl
      · exfalso
        have := hgt.mp hx
        rw [h] at this
        simp at this
    rw [e1, e2, e3]
    rfl
  · have e1 : f16_lt a b = false := by
      cases hx : f16_lt a b
      · rfl
      · exfalso
        have := hlt.mp hx
        rw [h] at this
        simp at this
    have e2 : f16_eq a b = false := by
      cases hx : f16_eq a b
      · rfl
      · exfalso
        have := heqq.mp hx
        rw [h] at this
        simp at this
    have e3 : f16_gt a b = true := hgt.mpr h
    rw [e1, e2, e3]
    rfl

/-- Witness for C3 at the pair (1.0, 2.0), patterns 0x3C00 and 0x4000. -/
theorem claim_C3_ordering_witness :
    f16_cmp 0x3C00 0x4000 = f32_cmp (f16_to_f32 0x3C00) (f16_to_f32 0x4000) :=
  (((claim_C3_ordering 0x3C00 0x4000 (by decide) (by decide)).2
    (by decide) (by decide)).2).1

/-- Claim C4: each individually case-split operator agrees with the 3-way
comparison (lt with Less, le with Less-or-Equal, gt with Greater, ge with
Greater-or-Equal); all four return false when an operand is NaN; and no
strict inequality holds between +0 (0x0000) and -0 (0x8000) in either
direction. -/
theorem claim_C4_operators (a b : ℕ) (ha : a < 65536) (hbb : b < 65536) :
    (f16_lt a b = true ↔ f16_cmp a b = some Ordering.lt) ∧
    (f16_le a b = true ↔
      (f16_cmp a b = some Ordering.lt ∨ f16_cmp a b = some Ordering.eq)) ∧
    (f16_gt a b = true ↔ f16_cmp a b = some Ordering.gt) ∧
    (f16_ge a b = true ↔
      (f16_cmp a b = some Ordering.gt ∨ f16_cmp a b = some Ordering.eq)) ∧
    (is_nan a = true ∨ is_nan b = true →
      f16_lt a b = false ∧ f16_le a b = false ∧
      f16_gt a b = false ∧ f16_ge a b = false) ∧
    (f16_lt 0x0000 0x8000 = false ∧ f16_gt 0x0000 0x8000 = false ∧
      f16_lt 0x8000 0x0000 = false ∧ f16_gt 0x8000 0x0000 = false) := by
  refine ⟨lt_iff_cmp a b, le_iff_cmp a b, gt_iff_cmp a b, ge_iff_cmp a b,
    fun h => ?_, by decide⟩
  have hcond : (is_nan a || is_nan b) = true := by
    rcases h with h | h <;> simp [h]
  refine ⟨?_, ?_, ?_, ?_⟩
  · unfold f16_lt
    rw [if_pos hcond]
  · unfold f16_le
    rw [if_pos hcond]
  · unfold f16_gt
    rw [if_pos hcond]
  · unfold f16_ge
    rw [if_pos hcond]

/-- Witness for C4 at the pair (1.0, 2.0), patterns 0x3C00 and 0x4000. -/
theorem claim_C4_operators_witness :
    (f16_lt 0x3C00 0x4000 = true ↔ f16_cmp 0x3C00 0x4000 = some Ordering.lt) ∧
    f16_lt 0x0000 0x8000 = false :=
  ⟨(claim_C4_operators 0x3C00 0x4000 (by decide) (by decide)).1,
   ((claim_C4_operators 0x3C00 0x4000 (by decide) (by decide)).2.2.2.2.2).1⟩

theorem nan32_props (x : ℕ) (hx : x < 2 ^ 32) (hnx : is_nan32 x = true) :
    is_nan (f32_to_f16 x) = true ∧ f32_to_f16 x / 2 ^ 15 = x / 2 ^ 31 ∧
    f32_to_f16 x % 2 ^ 10 = 0x200 ||| (x % 2 ^ 23 / 2 ^ 13) := by
  have hx' : 0x7F800000 < x % 2 ^ 31 := by
    rw [is_nan32_arith] at hnx
    simpa using hnx
  obtain ⟨s, e, m, hs, he, hm, rfl⟩ :
      ∃ s e m, s < 2 ∧ e ≤ 255 ∧ m < 2 ^ 23 ∧ x = s * 2 ^ 31 + e * 2 ^ 23 + m :=
    ⟨x / 2 ^ 31, x / 2 ^ 23 % 2 ^ 8, x % 2 ^ 23, by omega, by omega, by omega, by omega⟩
  have he255 : e = 255 := by omega
  have hm1 : 1 ≤ m := by omega
  subst he255
  rw [narrow32_nan s m hs hm1 hm,
      show (s * 2 ^ 31 + 255 * 2 ^ 23 + m) % 2 ^ 23 = m from by omega,
      lor_quiet (m / 2 ^ 13) (by omega), is_nan_arith]
  by_cases hq : m / 2 ^ 13 < 0x200
  · rw [if_pos hq]
    refine ⟨by simp only [decide_eq_true_eq]; omega, by omega, by omega⟩
  · rw [if_neg hq]
    have hq' : m / 2 ^ 13 < 1024 := by omega
    refine ⟨by simp only [decide_eq_true_eq]; omega, by omega, by omega⟩

theorem nan64_props (y : ℕ) (hy : y < 2 ^ 64) (hny : is_nan64 y = true) :
    is_nan (f64_to_f16 y) = true ∧ f64_to_f16 y / 2 ^ 15 = y / 2 ^ 63 ∧
    f64_to_f16 y % 2 ^ 10 = 0x200 ||| (y % 2 ^ 52 / 2 ^ 42) := by
  have hy' : 0x7FF0000000000000 < y % 2 ^ 63 := by
    rw [is_nan64_arith] at hny
    simpa using hny
  obtain ⟨s, e, m, hs, he, hm, rfl⟩ :
      ∃ s e m, s < 2 ∧ e ≤ 2047 ∧ m < 2 ^ 52 ∧ y = s * 2 ^ 63 + e * 2 ^ 52 + m :=
    ⟨y / 2 ^ 63, y / 2 ^ 52 % 2 ^ 11, y % 2 ^ 52, by omega, by omega, by omega, by omega⟩
  have he2047 : e = 2047 := by omega
  have hm1 : 1 ≤ m := by omega
  subst he2047
  rw [narrow64_nan s m hs hm1 hm,
      show (s * 2 ^ 63 + 2047 * 2 ^ 52 + m) % 2 ^ 52 = m from by omega,
      lor_quiet (m / 2 ^ 42) (by omega), is_nan_arith]
  by_cases hq : m / 2 ^ 42 < 0x200
  · rw [if_pos hq]
    refine ⟨by simp only [decide_eq_true_eq]; omega, by omega, by omega⟩
  · rw [if_neg hq]
    have hq' : m / 2 ^ 42 < 1024 := by omega
    refine ⟨by simp only [decide_eq_true_eq]; omega, by omega, by omega⟩

/-- Claim C8: narrowing any 32-bit (respectively 64-bit) NaN gives a 16-bit
pattern classifying as NaN whose sign bit equals the source sign bit, and
whose 10 payload bits are the most significant mantissa bits of the source
(with the quiet bit 0x200 forced so the result stays a NaN). -/
theorem claim_C8_nan_preserved (x y : ℕ) (hx : x < 2 ^ 32) (hnx : is_nan32 x = true)
    (hy : y < 2 ^ 64) (hny : is_nan64 y = true) :
    is_nan (f32_to_f16 x) = true ∧ f32_to_f16 x / 2 ^ 15 = x / 2 ^ 31 ∧
    f32_to_f16 x % 2 ^ 10 = 0x200 ||| (x % 2 ^ 23 / 2 ^ 13) ∧
    is_nan (f64_to_f16 y) = true ∧ f64_to_f16 y / 2 ^ 15 = y / 2 ^ 63 ∧
    f64_to_f16 y % 2 ^ 10 = 0x200 ||| (y % 2 ^ 52 / 2 ^ 42) :=
  ⟨(nan32_props x hx hnx).1, (nan32_props x hx hnx).2.1, (nan32_props x hx hnx).2.2,
   (nan64_props y hy hny).1, (nan64_props y hy hny).2.1, (nan64_props y hy hny).2.2⟩

/-- Witness for C8 at a positive signaling 32-bit NaN and a negative
64-bit NaN. -/
theorem claim_C8_nan_preserved_witness :
    is_nan (f32_to_f16 0x7F800001) = true ∧
    f64_to_f16 0xFFF0000000000001 / 2 ^ 15 = 0xFFF0000000000001 / 2 ^ 63 :=
  ⟨(claim_C8_nan_preserved 0x7F800001 0xFFF0000000000001 (by decide) (by decide)
      (by decide) (by decide)).1,
   (claim_C8_nan_preserved 0x7F800001 0xFFF0000000000001 (by decide) (by decide)
      (by decide) (by decide)).2.2.2.2.1⟩

/-- Claim C9: the conversion and comparison core is total: every in-range
input maps to a defined, in-range result -- both narrowings land in the
16-bit range for every 32- / 64-bit pattern (NaN, infinities and subnormals
included), both widenings land in the wider range, and the comparison and
equality operations always produce a value of their option / boolean result
type. -/
theorem claim_C9_totality (x32 x64 p a b : ℕ) (hx32 : x32 < 2 ^ 32)
    (hx64 : x64 < 2 ^ 64) (hp : p < 65536) (ha : a < 65536) (hbb : b < 65536) :
    f32_to_f16 x32 < 65536 ∧ f64_to_f16 x64 < 65536 ∧
    f16_to_f32 p < 2 ^ 32 ∧ f16_to_f64 p < 2 ^ 64 ∧
    (f16_cmp a b = none ∨ ∃ o, f16_cmp a b = some o) ∧
    (f16_eq a b = true ∨ f16_eq a b = false) := by
  refine ⟨narrow32_lt x32 hx32, narrow64_lt x64 hx64, widen32_lt p hp,
    widen64_lt p hp, ?_, ?_⟩
  · rcases h : f16_cmp a b with _ | o
    · exact Or.inl rfl
    · exact Or.inr ⟨o, rfl⟩
  · cases h : f16_eq a b
    · exact Or.inr rfl
    · exact Or.inl rfl

/-- Witness for C9 at an arbitrary 32-bit pattern and the all-ones-magnitude
16-bit pattern. -/
theorem claim_C9_totality_witness :
    f32_to_f16 0xDEADBEEF < 65536 ∧ f16_to_f32 0x7FFF < 2 ^ 32 :=
  ⟨(claim_C9_totality 0xDEADBEEF 0 0x7FFF 0 0 (by decide) (by decide) (by decide)
      (by decide) (by decide)).1,
   (claim_C9_totality 0xDEADBEEF 0 0x7FFF 0 0 (by decide) (by decide) (by decide)
      (by decide) (by decide)).2.2.1⟩

/-- Claim C10: `signum` returns a NaN argument unchanged bit-for-bit;
otherwise it returns exactly 0xBC00 (-1.0) when the sign bit is set
(including -0 and negative infinity) and exactly 0x3C00 (+1.0) when the
sign bit is clear (including +0 and positive infinity). -/
theorem claim_C10_signum (p : ℕ) (hp : p < 65536) :
    (is_nan p = true → signum p = p) ∧
    (is_nan p = false → p / 2 ^ 15 = 1 → signum p = 0xBC00) ∧
    (is_nan p = false → p / 2 ^ 15 = 0 → signum p = 0x3C00) := by
  refine ⟨fun h => ?_, fun h hsgn => ?_, fun h hsgn => ?_⟩
  · unfold signum
    rw [if_pos h]
  · unfold signum
    rw [if_neg (by simp [h]),
        if_neg (show ¬(((p &&& 0x8000 == 0) = true)) from by
          rw [sign_arith]
          simp only [decide_eq_true_eq]
          omega)]
    decide
  · unfold signum
    rw [if_neg (by simp [h]),
        if_pos (show ((p &&& 0x8000 == 0) = true) from by
          rw [sign_arith]
          simp only [decide_eq_true_eq]
          omega)]
    decide

/-- Witness for C10 at the NaN 0xFC01, at -0 (0x8000) and at positive
infinity (0x7C00). -/
theorem claim_C10_signum_witness :
    signum 0xFC01 = 0xFC01 ∧ signum 0x8000 = 0xBC00 ∧ signum 0x7C00 = 0x3C00 :=
  ⟨(claim_C10_signum 0xFC01 (by decide)).1 (by decide),
   (claim_C10_signum 0x8000 (by decide)).2.1 (by decide) (by decide),
   (claim_C10_signum 0x7C00 (by decide)).2.2 (by decide) (by decide)⟩
